import Mathlib

/-!
Verification development for the MLBStandings core: a shallow embedding of the
standings aggregation and ranking engine (models, tolerant parsers, JSON
decoding, and the `StandingsViewModel` filter/sort/favorite pipeline), with
theorems checking the engine's specified behaviour.

Swift `Double` values are modelled exactly as fractions (`Dbl`: an integer
numerator with a positive natural denominator); every `Double` the core
manipulates is produced by decimal parsing or decimal literals, so exact
fractions are a faithful model and no floating-point rounding is observable.
Swift `Int` is modelled as the unbounded `ℤ`, with the 64-bit `Int.min`
sentinel kept as an explicit constant.
-/

namespace MLBStandings

/-! ## Exact model of Swift `Double` values -/
/-- Exact fraction model of a Swift `Double`: `num / den` with `den` positive.
Comparisons are by cross-multiplication, so they agree with the rational value
ordering (`Dbl.toRat`). -/
structure Dbl where
  num : ℤ
  den : ℕ+
deriving DecidableEq

/-- The rational value of a `Dbl`. -/
def Dbl.toRat (d : Dbl) : ℚ := (d.num : ℚ) / ((d.den : ℕ) : ℚ)

/-- Models Swift `==` on `Double` (value equality). -/
def Dbl.beqv (a b : Dbl) : Bool := decide (a.num * ((b.den : ℕ) : ℤ) = b.num * ((a.den : ℕ) : ℤ))

/-- Models Swift `<` on `Double` (value order). -/
def Dbl.blt (a b : Dbl) : Bool := decide (a.num * ((b.den : ℕ) : ℤ) < b.num * ((a.den : ℕ) : ℤ))

/-- A `Double` from an integer. -/
def Dbl.ofInt (n : ℤ) : Dbl := ⟨n, 1⟩

/-- Negation of a `Double`. -/
def Dbl.neg (d : Dbl) : Dbl := ⟨-d.num, d.den⟩

/-- Addition of `Double`s (exact; decimal values stay exact in binary64 only up
to precision, but the values the core adds are small decimal counts). -/
def Dbl.add (a b : Dbl) : Dbl :=
  ⟨a.num * ((b.den : ℕ) : ℤ) + b.num * ((a.den : ℕ) : ℤ), a.den * b.den⟩

/-- Division of `Double`s, used by the core only under a positivity guard on
the divisor; a non-positive divisor yields an arbitrary value (never reached). -/
def Dbl.div (a b : Dbl) : Dbl :=
  if h : 0 < b.num then ⟨a.num * ((b.den : ℕ) : ℤ), a.den * ⟨b.num.toNat, by omega⟩⟩
  else ⟨0, 1⟩

/-! ## String utilities

Models of the Swift string operations the core uses.  All string data the core
manipulates is ASCII apart from the em-dash sentinel, so ASCII case mapping
(`Char.toLower`/`Char.toUpper`, which fix non-ASCII characters) is faithful.
-/
/-- Membership in the character set `" %"` used by the tolerant double parser's
trimming step. -/
def isSpaceOrPercent (c : Char) : Bool := c == ' ' || c == '%'

/-- Models `trimmingCharacters(in: CharacterSet(charactersIn: " %"))`. -/
def trimSpacePercent (s : String) : String :=
  ⟨((s.data.dropWhile isSpaceOrPercent).reverse.dropWhile isSpaceOrPercent).reverse⟩

/-- Numeric value of a decimal digit character. -/
def digitVal (c : Char) : Nat := c.toNat - '0'.toNat

/-- Value of a list of decimal digit characters, most significant first. -/
def natOfDigits (ds : List Char) : Nat := ds.foldl (fun n c => n * 10 + digitVal c) 0

/-- Core of the decimal-string parse: digits, optionally followed by a point and
fractional digits; a leading point with fractional digits is also accepted.
At least one digit must be present overall. -/
def parseDecimalCore (cs : List Char) : Option Dbl :=
  let intPart := cs.takeWhile Char.isDigit
  let rest := cs.dropWhile Char.isDigit
  match rest with
  | [] => if intPart.isEmpty then none else some ⟨(natOfDigits intPart : ℤ), 1⟩
  | '.' :: frac =>
      if frac.all Char.isDigit then
        if intPart.isEmpty && frac.isEmpty then none
        else some ⟨((natOfDigits intPart * 10 ^ frac.length + natOfDigits frac : ℕ) : ℤ),
          ⟨10 ^ frac.length, Nat.pos_pow_of_pos _ (by norm_num)⟩⟩
      else none
  | _ => none

/-- Models Swift's `Double.init?(String)` on the decimal-literal subset the
standings data uses (optional sign, digits, optional fraction, accepting a
leading point): the whole string must parse, else `nil`. -/
def parseDecimalStr (s : String) : Option Dbl :=
  match s.data with
  | '-' :: rest => (parseDecimalCore rest).map Dbl.neg
  | '+' :: rest => parseDecimalCore rest
  | cs => parseDecimalCore cs

/-- Models the file-private `Double.init?(_ string: String?)` tolerant parser in
`StandingsModels.swift`: trim spaces and percent signs, empty and dash-like
sentinels parse to absent, and a string with an omitted leading zero is retried
with `"0"` prepended. -/
def tolerantDouble : Option String → Option Dbl
  | none => none
  | some s =>
    let trimmed := trimSpacePercent s
    if trimmed.isEmpty then none
    else if trimmed = "—" || trimmed = "-" then none
    else match parseDecimalStr trimmed with
      | some v => some v
      | none => parseDecimalStr ("0" ++ trimmed)

/-- Digits-only core of the integer-string parse. -/
def parseIntCore (cs : List Char) : Option Int :=
  if cs.isEmpty || !(cs.all Char.isDigit) then none else some ((natOfDigits cs : Int))

/-- Models Swift's `Int.init?(String)` on decimal strings (optional sign then
digits; 64-bit overflow is not modelled since parsed ranks are small). -/
def parseIntStr (s : String) : Option Int :=
  match s.data with
  | '-' :: rest => (parseIntCore rest).map (fun n => -n)
  | '+' :: rest => parseIntCore rest
  | cs => parseIntCore cs

/-- Models the file-private `Int.init?(_ string: String?)` extension. -/
def parseIntOpt : Option String → Option Int
  | none => none
  | some s => parseIntStr s

/-- Does the pattern (first argument) occur at the head of the list? -/
def startsWithCh : List Char → List Char → Bool
  | [], _ => true
  | _ :: _, [] => false
  | p :: ps, c :: cs => p == c && startsWithCh ps cs

/-- Substring search on character lists: haystack first, pattern second.  All
uses in the core pass a non-empty pattern. -/
def containsSub : List Char → List Char → Bool
  | [], pat => pat.isEmpty
  | c :: cs, pat => startsWithCh pat (c :: cs) || containsSub cs pat

/-- Models Swift `String.contains(_:)` (substring containment). -/
def containsString (s pat : String) : Bool := containsSub s.data pat.data

/-- Models Swift `lowercased()` on ASCII data (kernel-computable, unlike the
byte-position-based `String.toLower`). -/
def strToLower (s : String) : String := ⟨s.data.map Char.toLower⟩

/-- Models Swift `uppercased()` on ASCII data. -/
def strToUpper (s : String) : String := ⟨s.data.map Char.toUpper⟩

/-- Models `localizedCaseInsensitiveContains` on the ASCII data it is used
with. -/
def caseInsensitiveContains (s pat : String) : Bool :=
  containsString (strToLower s) (strToLower pat)

/-- Rounded fixed-point scaling used by the `"%.Nf"` format model:
the value `|d| * 10 ^ decimals` rounded half away from zero. -/
def Dbl.roundedScaled (decimals : ℕ) (d : Dbl) : ℕ :=
  (d.num.natAbs * 10 ^ decimals * 2 + (d.den : ℕ)) / (2 * (d.den : ℕ))

/-- Models `String(format: "%.<d>f", v)` on the exact decimal values the app
formats: fixed-point with `d` fractional digits, rounding half away from zero
(the values actually formatted are exact at the target precision, so the
rounding mode is not observable). -/
def formatFixed (decimals : Nat) (d : Dbl) : String :=
  let n := Dbl.roundedScaled decimals d
  let ip := n / 10 ^ decimals
  let fp := n % 10 ^ decimals
  let fpStr := toString fp
  let pad := String.mk (List.replicate (decimals - fpStr.length) '0')
  let base := toString ip ++ "." ++ pad ++ fpStr
  if decide (d.num < 0) then "-" ++ base else base

/-! ## Raw (Decodable) entities

Models of the `Decodable` structs in `StandingsModels.swift`, with Swift
optionals as `Option`. -/
/-- Raw `TeamInfo`. -/
structure TeamInfo where
  id : ℤ
  name : String
  teamName : Option String
  shortName : Option String
  clubName : Option String
  locationName : Option String
  abbreviation : Option String
  fileCode : Option String
deriving DecidableEq

/-- Raw `TeamRecord.Streak`. -/
structure TeamRecord.Streak where
  streakCode : Option String
  streakNumber : Option ℤ
  streakType : Option String
deriving DecidableEq

/-- Raw `TeamRecord.Split`. -/
structure TeamRecord.Split where
  wins : Option ℤ
  losses : Option ℤ
  pct : Option String
deriving DecidableEq

/-- Raw `TeamRecord`. -/
structure TeamRecord where
  team : TeamInfo
  streak : Option TeamRecord.Streak
  divisionRank : Option String
  leagueRank : Option String
  wildCardRank : Option String
  clinched : Option Bool
  wins : ℤ
  losses : ℤ
  winningPercentage : String
  gamesBack : Option String
  runsScored : Option ℤ
  runsAllowed : Option ℤ
  runDifferential : Option ℤ
  lastTen : Option String
  home : Option TeamRecord.Split
  away : Option TeamRecord.Split
  extraInnings : Option TeamRecord.Split
  oneRun : Option TeamRecord.Split
deriving DecidableEq

/-- Raw `DivisionInfo`. -/
structure DivisionInfo where
  id : ℤ
  name : String
  nameShort : Option String
  abbreviation : Option String
  shortName : Option String
deriving DecidableEq

/-- Raw `LeagueInfo`. -/
structure LeagueInfo where
  id : ℤ
  name : String
  abbreviation : Option String
deriving DecidableEq

/-- Raw `DivisionRecord`. -/
structure DivisionRecord where
  teamRecords : List TeamRecord
  division : Option DivisionInfo
  league : Option LeagueInfo
  season : Option String
deriving DecidableEq

/-- Raw `StandingsResponse`. -/
structure StandingsResponse where
  records : List DivisionRecord
deriving DecidableEq

/-! ## Team branding (stored data only; the SwiftUI colour accessors are
presentation and are not modelled) -/
/-- Stored fields of `TeamBranding`. -/
structure TeamBranding where
  abbreviation : String
  primaryHex : String
  secondaryHex : String
  accentHex : String
deriving DecidableEq

/-- The `defaultPalette` fallback. -/
def TeamBranding.defaultPalette : TeamBranding :=
  ⟨"MLB", "#13274F", "#0C2340", "#FF6F61"⟩

/-- The `palettes` dictionary, as an association list. -/
def TeamBranding.palettes : List (String × TeamBranding) := [
  ("ARI", ⟨"ARI", "#A71930", "#000000", "#E3D4AD"⟩),
  ("ATL", ⟨"ATL", "#13274F", "#CE1141", "#EAAA00"⟩),
  ("BAL", ⟨"BAL", "#DF4601", "#000000", "#333333"⟩),
  ("BOS", ⟨"BOS", "#BD3039", "#0D2B56", "#FFFFFF"⟩),
  ("CHC", ⟨"CHC", "#0E3386", "#CC3433", "#FFFFFF"⟩),
  ("CHW", ⟨"CHW", "#27251F", "#C4CED4", "#000000"⟩),
  ("CIN", ⟨"CIN", "#C6011F", "#000000", "#FFFFFF"⟩),
  ("CLE", ⟨"CLE", "#0C2340", "#E31937", "#A4A9AD"⟩),
  ("COL", ⟨"COL", "#33006F", "#C4CED4", "#000000"⟩),
  ("DET", ⟨"DET", "#0C2340", "#FA4616", "#FFFFFF"⟩),
  ("HOU", ⟨"HOU", "#002D62", "#EB6E1F", "#F4911E"⟩),
  ("KC", ⟨"KC", "#004687", "#C09A5B", "#FFFFFF"⟩),
  ("KCR", ⟨"KCR", "#004687", "#C09A5B", "#FFFFFF"⟩),
  ("LAA", ⟨"LAA", "#BA0021", "#003263", "#862633"⟩),
  ("LAD", ⟨"LAD", "#005A9C", "#EF3E42", "#FFFFFF"⟩),
  ("MIA", ⟨"MIA", "#00A3E0", "#EF3340", "#000000"⟩),
  ("MIL", ⟨"MIL", "#0A2351", "#B6922E", "#FFFFFF"⟩),
  ("MIN", ⟨"MIN", "#002B5C", "#D31145", "#B9975B"⟩),
  ("NYM", ⟨"NYM", "#002D72", "#FF5910", "#FFB81C"⟩),
  ("NYN", ⟨"NYN", "#002D72", "#FF5910", "#FFB81C"⟩),
  ("NYY", ⟨"NYY", "#0C2340", "#C4CED4", "#A2AAAD"⟩),
  ("OAK", ⟨"OAK", "#003831", "#EFB21E", "#A2AAAD"⟩),
  ("PHI", ⟨"PHI", "#E81828", "#002D72", "#A7A9AC"⟩),
  ("PIT", ⟨"PIT", "#27251F", "#FDB827", "#C4CED4"⟩),
  ("SD", ⟨"SD", "#2F241D", "#FFC425", "#0055A5"⟩),
  ("SDP", ⟨"SDP", "#2F241D", "#FFC425", "#0055A5"⟩),
  ("SEA", ⟨"SEA", "#0C2C56", "#005C5C", "#C4CED4"⟩),
  ("SF", ⟨"SF", "#FD5A1E", "#27251F", "#8B6F4E"⟩),
  ("STL", ⟨"STL", "#C41E3A", "#0C2340", "#FEDB00"⟩),
  ("TB", ⟨"TB", "#092C5C", "#8FBCE6", "#F5D130"⟩),
  ("TBR", ⟨"TBR", "#092C5C", "#8FBCE6", "#F5D130"⟩),
  ("TEX", ⟨"TEX", "#003278", "#C0111F", "#FFFFFF"⟩),
  ("TOR", ⟨"TOR", "#134A8E", "#1D2D5C", "#E8291C"⟩),
  ("WSH", ⟨"WSH", "#AB0003", "#11225B", "#FFFFFF"⟩),
  ("WSN", ⟨"WSN", "#AB0003", "#11225B", "#FFFFFF"⟩),
  ("CWS", ⟨"CWS", "#27251F", "#C4CED4", "#000000"⟩)]

/-- Association-list lookup with string keys (kernel-computable model of the
dictionary subscript). -/
def lookupPalette : List (String × TeamBranding) → String → Option TeamBranding
  | [], _ => none
  | (k, v) :: rest, key => if k = key then some v else lookupPalette rest key

/-- Models `TeamBranding.palette(for:)`. -/
def TeamBranding.palette (abbreviation : String) : TeamBranding :=
  (lookupPalette TeamBranding.palettes (strToUpper abbreviation)).getD
    TeamBranding.defaultPalette

/-! ## Domain entities and normalization -/
/-- Domain `RecordSplit`. -/
structure RecordSplit where
  wins : ℤ
  losses : ℤ
  percentage : Dbl
deriving DecidableEq

/-- Models `RecordSplit.init?(split:)`: constructed only when both win and
loss counts are present; the percentage string degrades to `0`. -/
def RecordSplit.ofSplit (split : Option TeamRecord.Split) : Option RecordSplit :=
  match split.bind (·.wins), split.bind (·.losses) with
  | some wins, some losses =>
      some ⟨wins, losses, (tolerantDouble (split.bind (·.pct))).getD (Dbl.ofInt 0)⟩
  | _, _ => none

/-- Domain `TeamStanding`. -/
structure TeamStanding where
  id : ℤ
  name : String
  shortName : String
  location : String
  abbreviation : String
  wins : ℤ
  losses : ℤ
  winningPercentage : Dbl
  winningPercentageText : String
  gamesBack : Option Dbl
  gamesBackText : String
  runDifferential : Option ℤ
  runsScored : Option ℤ
  runsAllowed : Option ℤ
  divisionRank : Option ℤ
  leagueRank : Option ℤ
  wildCardRank : Option ℤ
  streakCode : String
  streakCount : ℤ
  streakIsWin : Bool
  lastTenRecord : String
  lastTenWinRate : Dbl
  clinched : Bool
  homeRecord : Option RecordSplit
  awayRecord : Option RecordSplit
  extraInningsRecord : Option RecordSplit
  oneRunRecord : Option RecordSplit
  branding : TeamBranding
  season : ℤ
  leagueID : ℤ
  divisionID : ℤ
deriving DecidableEq

/-- Models `TeamStanding.defaultStreakCode(from:)`. -/
def TeamStanding.defaultStreakCode : Option TeamRecord.Streak → String
  | none => ""
  | some streak =>
    let number := streak.streakNumber.getD 0
    let pre := if strToLower (streak.streakType.getD "") = "wins" then "W" else "L"
    pre ++ toString number

/-- Character-list split that drops empty pieces, modelling Swift
`split(separator:)` with its default `omittingEmptySubsequences: true`. -/
def splitChAux (sep : Char) : List Char → List Char → List String
  | [], acc => if acc.isEmpty then [] else [⟨acc.reverse⟩]
  | c :: cs, acc =>
      if c == sep then
        (if acc.isEmpty then splitChAux sep cs [] else ⟨acc.reverse⟩ :: splitChAux sep cs [])
      else splitChAux sep cs (c :: acc)

/-- Models `TeamStanding.winRate(from:)`: split the `"W-L"` record on the dash,
parse both sides as doubles, return wins over total, or `0` when the string
is malformed or the total is zero. -/
def TeamStanding.winRate (record : String) : Dbl :=
  match splitChAux '-' record.data [] with
  | [w, l] =>
    match parseDecimalStr w, parseDecimalStr l with
    | some wins, some losses =>
      let total := wins.add losses
      if (Dbl.ofInt 0).blt total then wins.div total else Dbl.ofInt 0
    | _, _ => Dbl.ofInt 0
  | _ => Dbl.ofInt 0

/-- Models `StandingsViewModel.currentSeason` (the calendar year of the wall
clock); fixed as a constant here since no verified behaviour depends on the
ambient date. -/
def currentSeason : ℤ := 2025

/-- Models `TeamStanding.init(record:league:division:season:)`. -/
def TeamStanding.ofRecord (record : TeamRecord) (league : Option LeagueInfo)
    (division : Option DivisionInfo) (season : ℤ) : TeamStanding :=
  let team := record.team
  let shortName := match team.shortName with
    | some s => s
    | none => team.teamName.getD team.name
  let location := team.locationName.getD team.name
  let abbreviation := team.abbreviation.getD (strToUpper ⟨team.name.data.take 3⟩)
  let percentageValue := (tolerantDouble (some record.winningPercentage)).getD (Dbl.ofInt 0)
  let gamesBackValue := tolerantDouble record.gamesBack
  let gamesBackText := match gamesBackValue with
    | some v => if v.beqv (Dbl.ofInt 0) then "—" else formatFixed 1 v ++ " GB"
    | none => record.gamesBack.getD "—"
  let streakCodeRaw := (record.streak.bind (·.streakCode)).getD ""
  let streakCode := if streakCodeRaw.isEmpty then
      TeamStanding.defaultStreakCode record.streak
    else streakCodeRaw
  let streakCount := match record.streak.bind (·.streakNumber) with
    | some n => n
    | none => (parseIntStr ⟨streakCodeRaw.data.drop 1⟩).getD 0
  let isWin := decide ((record.streak.bind (·.streakType)).map strToLower = some "wins")
      || startsWithCh ['W'] (strToUpper streakCodeRaw).data
  let lastTen := record.lastTen.getD "0-0"
  { id := team.id
    name := team.name
    shortName := shortName
    location := location
    abbreviation := abbreviation
    wins := record.wins
    losses := record.losses
    winningPercentage := percentageValue
    winningPercentageText := formatFixed 3 percentageValue
    gamesBack := gamesBackValue
    gamesBackText := gamesBackText
    runDifferential := record.runDifferential
    runsScored := record.runsScored
    runsAllowed := record.runsAllowed
    divisionRank := parseIntStr (record.divisionRank.getD "")
    leagueRank := parseIntStr (record.leagueRank.getD "")
    wildCardRank := parseIntStr (record.wildCardRank.getD "")
    streakCode := streakCode
    streakCount := streakCount
    streakIsWin := isWin
    lastTenRecord := lastTen
    lastTenWinRate := TeamStanding.winRate lastTen
    clinched := record.clinched.getD false
    homeRecord := RecordSplit.ofSplit record.home
    awayRecord := RecordSplit.ofSplit record.away
    extraInningsRecord := RecordSplit.ofSplit record.extraInnings
    oneRunRecord := RecordSplit.ofSplit record.oneRun
    branding := TeamBranding.palette abbreviation
    season := season
    leagueID := (league.map (·.id)).getD 0
    divisionID := (division.map (·.id)).getD 0 }

/-- Models the computed `searchableText` property. -/
def TeamStanding.searchableText (t : TeamStanding) : String :=
  strToLower (t.name ++ " " ++ t.shortName ++ " " ++ t.location ++ " " ++ t.abbreviation)

/-- Domain `StandingsSection`. -/
structure StandingsSection where
  id : ℤ
  divisionID : ℤ
  leagueID : ℤ
  leagueName : String
  leagueAbbreviation : String
  title : String
  subtitle : String
  teams : List TeamStanding
  season : ℤ
deriving DecidableEq

/-- Models `StandingsSection.init(from:)`. -/
def StandingsSection.ofRecord (record : DivisionRecord) : StandingsSection :=
  let leagueId := (record.league.map (·.id)).getD 0
  let leagueName := (record.league.map (·.name)).getD "Major League Baseball"
  let derivedAbbreviation := match record.league.bind (·.abbreviation) with
    | some explicit => explicit
    | none =>
      if caseInsensitiveContains leagueName "American" then "AL"
      else if caseInsensitiveContains leagueName "National" then "NL"
      else "MLB"
  let divisionId := match record.division.map (·.id) with
    | some i => i
    | none => leagueId * 100 + 1
  let subtitle := match record.division.bind (·.shortName) with
    | some s => s
    | none => match record.division.bind (·.nameShort) with
      | some s => s
      | none => (record.league.map (·.name)).getD ""
  let mappedSeason := (parseIntStr (record.season.getD "")).getD currentSeason
  { id := divisionId
    divisionID := divisionId
    leagueID := leagueId
    leagueName := leagueName
    leagueAbbreviation := derivedAbbreviation
    title := (record.division.map (·.name)).getD leagueName
    subtitle := subtitle
    teams := record.teamRecords.map
      (fun r => TeamStanding.ofRecord r record.league record.division mappedSeason)
    season := mappedSeason }

/-! ## Stable sorting

Models Swift `Array.sorted(by:)`.  Swift's sort is documented stable since
Swift 5, and its comparator contract requires a strict weak ordering — which
every comparator the engine passes satisfies — so a stable insertion sort with
the derived may-precede relation `!(lt b a)` produces the same output. -/
/-- Stable insertion of `x` into an already sorted list: `x` is placed before
the first element `b` with `r x b`. -/
def orderedInsertB {α : Type} (r : α → α → Bool) (x : α) : List α → List α
  | [] => [x]
  | b :: l => if r x b then x :: b :: l else b :: orderedInsertB r x l

/-- Stable insertion sort with a may-precede relation `r`. -/
def insertionSortB {α : Type} (r : α → α → Bool) : List α → List α
  | [] => []
  | x :: l => orderedInsertB r x (insertionSortB r l)

/-- Model of Swift `sorted(by: lt)` for a strict-weak-order comparator `lt`:
stable sort placing `a` before `b` whenever `!(lt b a)` allows it. -/
def sortedBySwift {α : Type} (lt : α → α → Bool) (l : List α) : List α :=
  insertionSortB (fun a b => !(lt b a)) l

/-! ## Ranking engine (StandingsViewModel) -/
/-- The `LeagueFilter` enum. -/
inductive LeagueFilter
  | all
  | american
  | national
deriving DecidableEq

/-- The `SortOption` enum. -/
inductive SortOption
  | divisionRank
  | winningPercentage
  | runDifferential
  | streak
  | lastTen
  | runsScored
deriving DecidableEq

/-- The 64-bit Swift `Int.min` sentinel used by the comparators for absent
values. -/
def intMin : ℤ := -(2 ^ 63)

/-- The published state of `StandingsViewModel`.  `filteredSections` is the
derived view recomputed by every mutation. -/
structure EngineState where
  sections : List StandingsSection
  filteredSections : List StandingsSection
  isLoading : Bool
  errorMessage : Option String
  searchText : String
  selectedLeague : LeagueFilter
  selectedDivisionID : Option ℤ
  sortOption : SortOption
  showFavoritesOnly : Bool
  favorites : Finset ℤ
  season : ℤ

/-- The per-option comparator chosen by the `switch sortOption` in
`sort(teams:)`. -/
def cmpOption : SortOption → TeamStanding → TeamStanding → Bool
  | .divisionRank, lhs, rhs =>
      decide (lhs.divisionRank.getD 0 < rhs.divisionRank.getD 0)
  | .winningPercentage, lhs, rhs =>
      if lhs.winningPercentage.beqv rhs.winningPercentage then
        decide (lhs.divisionRank.getD 0 < rhs.divisionRank.getD 0)
      else rhs.winningPercentage.blt lhs.winningPercentage
  | .runDifferential, lhs, rhs =>
      if lhs.runDifferential.getD intMin = rhs.runDifferential.getD intMin then
        decide (lhs.divisionRank.getD 0 < rhs.divisionRank.getD 0)
      else decide (rhs.runDifferential.getD intMin < lhs.runDifferential.getD intMin)
  | .streak, lhs, rhs =>
      if lhs.streakCount = rhs.streakCount then
        decide (lhs.divisionRank.getD 0 < rhs.divisionRank.getD 0)
      else decide (rhs.streakCount < lhs.streakCount)
  | .lastTen, lhs, rhs =>
      if lhs.lastTenWinRate.beqv rhs.lastTenWinRate then
        decide (lhs.divisionRank.getD 0 < rhs.divisionRank.getD 0)
      else rhs.lastTenWinRate.blt lhs.lastTenWinRate
  | .runsScored, lhs, rhs =>
      if lhs.runsScored.getD intMin = rhs.runsScored.getD intMin then
        decide (lhs.divisionRank.getD 0 < rhs.divisionRank.getD 0)
      else decide (rhs.runsScored.getD intMin < lhs.runsScored.getD intMin)

/-- The favorite-aware comparator passed to `teams.sorted(by:)` in
`sort(teams:)`. -/
def favoriteAwareCmp (favorites : Finset ℤ) (opt : SortOption)
    (lhs rhs : TeamStanding) : Bool :=
  let lhsFavorite := decide (lhs.id ∈ favorites)
  let rhsFavorite := decide (rhs.id ∈ favorites)
  if lhsFavorite == rhsFavorite then cmpOption opt lhs rhs
  else lhsFavorite && !rhsFavorite

/-- Models `sort(teams:)`: one stable sort by the favorite-aware comparator. -/
def sortTeams (favorites : Finset ℤ) (opt : SortOption)
    (teams : List TeamStanding) : List TeamStanding :=
  sortedBySwift (favoriteAwareCmp favorites opt) teams

/-- Models `applyFilters()`: league filter, division filter, per-section team
filters (favorites, then search), sort, and pruning of empty sections.  Pure:
it returns the new `filteredSections` and touches nothing else. -/
def applyFilters (st : EngineState) : List StandingsSection :=
  let ws0 : List StandingsSection := match st.selectedLeague with
    | .all => st.sections
    | .american => st.sections.filter (fun s => decide (s.leagueAbbreviation = "AL"))
    | .national => st.sections.filter (fun s => decide (s.leagueAbbreviation = "NL"))
  let ws1 : List StandingsSection := match st.selectedDivisionID with
    | some d => ws0.filter (fun s => decide (s.divisionID = d))
    | none => ws0
  ws1.filterMap (fun (sec : StandingsSection) =>
    let teams0 := sec.teams
    let teams1 := if st.showFavoritesOnly then
        teams0.filter (fun t => decide (t.id ∈ st.favorites))
      else teams0
    let teams2 := if st.searchText.isEmpty then teams1
      else
        let query := strToLower st.searchText
        teams1.filter (fun t => containsString t.searchableText query)
    let teams3 := sortTeams st.favorites st.sortOption teams2
    if teams3.isEmpty then none else some { sec with teams := teams3 })

/-- Store the recomputed filtered view, as every property `didSet` does. -/
def recompute (st : EngineState) : EngineState :=
  { st with filteredSections := applyFilters st }

/-- Models assignment to `searchText`. -/
def setSearchText (s : String) (st : EngineState) : EngineState :=
  recompute { st with searchText := s }

/-- Models `availableDivisionIDs(for:)` (a `Set<Int>` in the source; only
membership is consumed, so a list of the division ids is a faithful model). -/
def availableDivisionIDs (st : EngineState) (league : LeagueFilter) : List ℤ :=
  match league with
  | .all => st.sections.map (·.divisionID)
  | .american =>
      (st.sections.filter (fun s => decide (s.leagueAbbreviation = "AL"))).map (·.divisionID)
  | .national =>
      (st.sections.filter (fun s => decide (s.leagueAbbreviation = "NL"))).map (·.divisionID)

/-- Models assignment to `selectedLeague`, whose `didSet` clears a
no-longer-available division selection before recomputing.  (The source writes
`selectedDivisionID = nil` conditionally; expressed here as computing the new
division value, which is the same state.  `availableDivisionIDs` only reads
`sections`, which the assignment does not change.) -/
def setSelectedLeague (league : LeagueFilter) (st : EngineState) : EngineState :=
  let newDivision : Option ℤ := match st.selectedDivisionID with
    | some d => if d ∈ availableDivisionIDs st league then some d else none
    | none => none
  recompute { st with selectedLeague := league, selectedDivisionID := newDivision }

/-- Models assignment to `selectedDivisionID`. -/
def setSelectedDivisionID (d : Option ℤ) (st : EngineState) : EngineState :=
  recompute { st with selectedDivisionID := d }

/-- Models assignment to `sortOption`. -/
def setSortOption (o : SortOption) (st : EngineState) : EngineState :=
  recompute { st with sortOption := o }

/-- Models assignment to `showFavoritesOnly`. -/
def setShowFavoritesOnly (b : Bool) (st : EngineState) : EngineState :=
  recompute { st with showFavoritesOnly := b }

/-- Models `toggleFavorite(for:)`. -/
def toggleFavorite (team : TeamStanding) (st : EngineState) : EngineState :=
  if team.id ∈ st.favorites then recompute { st with favorites := st.favorites.erase team.id }
  else recompute { st with favorites := insert team.id st.favorites }

/-- Models `clearFilters()`: the five assignments in source order, each firing
its own `didSet`. -/
def clearFilters (st : EngineState) : EngineState :=
  setShowFavoritesOnly false
    (setSortOption .divisionRank
      (setSelectedDivisionID none
        (setSelectedLeague .all
          (setSearchText "" st))))

/-- Models the `aggregatedTeams` computed property: all teams of all
source-of-truth sections, independent of any filter. -/
def aggregatedTeams (st : EngineState) : List TeamStanding :=
  st.sections.flatMap (·.teams)

/-- Models `Sequence.max(by:)`: the running maximum is replaced whenever the
next element is not below it, so the last maximal element wins. -/
def maxBySwift {α : Type} (lt : α → α → Bool) : List α → Option α
  | [] => none
  | x :: xs => some (xs.foldl (fun result e => if !(lt e result) then e else result) x)

/-- Models the `bestWinPercentageTeam` computed property. -/
def bestWinPercentageTeam (st : EngineState) : Option TeamStanding :=
  maxBySwift (fun a b => a.winningPercentage.blt b.winningPercentage) (aggregatedTeams st)

/-- Models the `hottestStreakTeam` computed property. -/
def hottestStreakTeam (st : EngineState) : Option TeamStanding :=
  maxBySwift (fun a b => decide (a.streakCount < b.streakCount)) (aggregatedTeams st)

/-- Models the `bestRunDifferentialTeam` computed property. -/
def bestRunDifferentialTeam (st : EngineState) : Option TeamStanding :=
  maxBySwift (fun a b => decide (a.runDifferential.getD intMin < b.runDifferential.getD intMin))
    (aggregatedTeams st)

/-! ## Sample data

The hardcoded `TeamStanding.sample` / `StandingsSection.sample` values, which
`loadStandings` installs on fetch failure.  Decimal `Double` literals `x.y z…`
are embedded as `⟨digits, 10 ^ k⟩` fractions of the same value. -/
/-- The `TeamStanding.sample` value (the Yankees entry). -/
def TeamStanding.sample : TeamStanding :=
  { id := 147, name := "New York Yankees", shortName := "Yankees",
    location := "New York", abbreviation := "NYY", wins := 62, losses := 30,
    winningPercentage := ⟨674, 1000⟩, winningPercentageText := "0.674",
    gamesBack := some ⟨0, 1⟩, gamesBackText := "—",
    runDifferential := some 126, runsScored := some 432, runsAllowed := some 306,
    divisionRank := some 1, leagueRank := some 1, wildCardRank := none,
    streakCode := "W4", streakCount := 4, streakIsWin := true,
    lastTenRecord := "8-2", lastTenWinRate := ⟨8, 10⟩, clinched := false,
    homeRecord := some ⟨35, 14, ⟨714, 1000⟩⟩, awayRecord := some ⟨27, 16, ⟨628, 1000⟩⟩,
    extraInningsRecord := some ⟨5, 2, ⟨714, 1000⟩⟩, oneRunRecord := some ⟨12, 8, ⟨600, 1000⟩⟩,
    branding := TeamBranding.palette "NYY", season := 2024, leagueID := 103,
    divisionID := 201 }

/-- The Orioles sample entry. -/
def sampleOrioles : TeamStanding :=
  { id := 110, name := "Baltimore Orioles", shortName := "Orioles",
    location := "Baltimore", abbreviation := "BAL", wins := 58, losses := 35,
    winningPercentage := ⟨624, 1000⟩, winningPercentageText := "0.624",
    gamesBack := some ⟨4, 1⟩, gamesBackText := "4.0 GB",
    runDifferential := some 94, runsScored := some 421, runsAllowed := some 327,
    divisionRank := some 2, leagueRank := some 3, wildCardRank := some 1,
    streakCode := "W2", streakCount := 2, streakIsWin := true,
    lastTenRecord := "7-3", lastTenWinRate := ⟨7, 10⟩, clinched := false,
    homeRecord := some ⟨30, 18, ⟨625, 1000⟩⟩, awayRecord := some ⟨28, 17, ⟨622, 1000⟩⟩,
    extraInningsRecord := some ⟨4, 1, ⟨800, 1000⟩⟩, oneRunRecord := some ⟨13, 9, ⟨591, 1000⟩⟩,
    branding := TeamBranding.palette "BAL", season := 2024, leagueID := 103,
    divisionID := 201 }

/-- The Rays sample entry. -/
def sampleRays : TeamStanding :=
  { id := 139, name := "Tampa Bay Rays", shortName := "Rays",
    location := "Tampa Bay", abbreviation := "TB", wins := 53, losses := 40,
    winningPercentage := ⟨570, 1000⟩, winningPercentageText := "0.570",
    gamesBack := some ⟨9, 1⟩, gamesBackText := "9.0 GB",
    runDifferential := some 61, runsScored := some 398, runsAllowed := some 337,
    divisionRank := some 3, leagueRank := some 6, wildCardRank := some 2,
    streakCode := "L1", streakCount := 1, streakIsWin := false,
    lastTenRecord := "6-4", lastTenWinRate := ⟨6, 10⟩, clinched := false,
    homeRecord := some ⟨29, 18, ⟨617, 1000⟩⟩, awayRecord := some ⟨24, 22, ⟨522, 1000⟩⟩,
    extraInningsRecord := some ⟨3, 2, ⟨600, 1000⟩⟩, oneRunRecord := some ⟨11, 10, ⟨524, 1000⟩⟩,
    branding := TeamBranding.palette "TB", season := 2024, leagueID := 103,
    divisionID := 201 }

/-- The Blue Jays sample entry. -/
def sampleBlueJays : TeamStanding :=
  { id := 141, name := "Toronto Blue Jays", shortName := "Blue Jays",
    location := "Toronto", abbreviation := "TOR", wins := 47, losses := 46,
    winningPercentage := ⟨505, 1000⟩, winningPercentageText := "0.505",
    gamesBack := some ⟨15, 1⟩, gamesBackText := "15.0 GB",
    runDifferential := some 12, runsScored := some 372, runsAllowed := some 360,
    divisionRank := some 4, leagueRank := some 8, wildCardRank := some 5,
    streakCode := "W1", streakCount := 1, streakIsWin := true,
    lastTenRecord := "5-5", lastTenWinRate := ⟨5, 10⟩, clinched := false,
    homeRecord := some ⟨25, 21, ⟨543, 1000⟩⟩, awayRecord := some ⟨22, 25, ⟨468, 1000⟩⟩,
    extraInningsRecord := some ⟨2, 3, ⟨400, 1000⟩⟩, oneRunRecord := some ⟨15, 12, ⟨556, 1000⟩⟩,
    branding := TeamBranding.palette "TOR", season := 2024, leagueID := 103,
    divisionID := 201 }

/-- The Red Sox sample entry. -/
def sampleRedSox : TeamStanding :=
  { id := 111, name := "Boston Red Sox", shortName := "Red Sox",
    location := "Boston", abbreviation := "BOS", wins := 43, losses := 52,
    winningPercentage := ⟨453, 1000⟩, winningPercentageText := "0.453",
    gamesBack := some ⟨19, 1⟩, gamesBackText := "19.0 GB",
    runDifferential := some (-18), runsScored := some 360, runsAllowed := some 378,
    divisionRank := some 5, leagueRank := some 11, wildCardRank := some 7,
    streakCode := "L2", streakCount := 2, streakIsWin := false,
    lastTenRecord := "4-6", lastTenWinRate := ⟨4, 10⟩, clinched := false,
    homeRecord := some ⟨19, 27, ⟨413, 1000⟩⟩, awayRecord := some ⟨24, 25, ⟨490, 1000⟩⟩,
    extraInningsRecord := some ⟨1, 4, ⟨200, 1000⟩⟩, oneRunRecord := some ⟨10, 16, ⟨385, 1000⟩⟩,
    branding := TeamBranding.palette "BOS", season := 2024, leagueID := 103,
    divisionID := 201 }

/-- The Dodgers sample entry. -/
def sampleDodgers : TeamStanding :=
  { id := 119, name := "Los Angeles Dodgers", shortName := "Dodgers",
    location := "Los Angeles", abbreviation := "LAD", wins := 65, losses := 28,
    winningPercentage := ⟨699, 1000⟩, winningPercentageText := "0.699",
    gamesBack := some ⟨0, 1⟩, gamesBackText := "—",
    runDifferential := some 154, runsScored := some 468, runsAllowed := some 314,
    divisionRank := some 1, leagueRank := some 1, wildCardRank := none,
    streakCode := "W6", streakCount := 6, streakIsWin := true,
    lastTenRecord := "9-1", lastTenWinRate := ⟨9, 10⟩, clinched := false,
    homeRecord := some ⟨35, 12, ⟨745, 1000⟩⟩, awayRecord := some ⟨30, 16, ⟨652, 1000⟩⟩,
    extraInningsRecord := some ⟨6, 1, ⟨857, 1000⟩⟩, oneRunRecord := some ⟨18, 9, ⟨667, 1000⟩⟩,
    branding := TeamBranding.palette "LAD", season := 2024, leagueID := 104,
    divisionID := 203 }

/-- The Padres sample entry. -/
def samplePadres : TeamStanding :=
  { id := 135, name := "San Diego Padres", shortName := "Padres",
    location := "San Diego", abbreviation := "SD", wins := 57, losses := 37,
    winningPercentage := ⟨606, 1000⟩, winningPercentageText := "0.606",
    gamesBack := some ⟨8, 1⟩, gamesBackText := "8.0 GB",
    runDifferential := some 72, runsScored := some 420, runsAllowed := some 348,
    divisionRank := some 2, leagueRank := some 3, wildCardRank := some 1,
    streakCode := "W3", streakCount := 3, streakIsWin := true,
    lastTenRecord := "7-3", lastTenWinRate := ⟨7, 10⟩, clinched := false,
    homeRecord := some ⟨29, 18, ⟨617, 1000⟩⟩, awayRecord := some ⟨28, 19, ⟨596, 1000⟩⟩,
    extraInningsRecord := some ⟨4, 2, ⟨667, 1000⟩⟩, oneRunRecord := some ⟨16, 11, ⟨593, 1000⟩⟩,
    branding := TeamBranding.palette "SD", season := 2024, leagueID := 104,
    divisionID := 203 }

/-- The Giants sample entry. -/
def sampleGiants : TeamStanding :=
  { id := 137, name := "San Francisco Giants", shortName := "Giants",
    location := "San Francisco", abbreviation := "SF", wins := 49, losses := 45,
    winningPercentage := ⟨521, 1000⟩, winningPercentageText := "0.521",
    gamesBack := some ⟨16, 1⟩, gamesBackText := "16.0 GB",
    runDifferential := some 24, runsScored := some 390, runsAllowed := some 366,
    divisionRank := some 3, leagueRank := some 6, wildCardRank := some 2,
    streakCode := "L1", streakCount := 1, streakIsWin := false,
    lastTenRecord := "6-4", lastTenWinRate := ⟨6, 10⟩, clinched := false,
    homeRecord := some ⟨27, 22, ⟨551, 1000⟩⟩, awayRecord := some ⟨22, 23, ⟨489, 1000⟩⟩,
    extraInningsRecord := some ⟨3, 3, ⟨500, 1000⟩⟩, oneRunRecord := some ⟨14, 13, ⟨519, 1000⟩⟩,
    branding := TeamBranding.palette "SF", season := 2024, leagueID := 104,
    divisionID := 203 }

/-- The Diamondbacks sample entry. -/
def sampleDiamondbacks : TeamStanding :=
  { id := 109, name := "Arizona Diamondbacks", shortName := "D-backs",
    location := "Arizona", abbreviation := "ARI", wins := 46, losses := 49,
    winningPercentage := ⟨484, 1000⟩, winningPercentageText := "0.484",
    gamesBack := some ⟨19, 1⟩, gamesBackText := "19.0 GB",
    runDifferential := some (-12), runsScored := some 364, runsAllowed := some 376,
    divisionRank := some 4, leagueRank := some 8, wildCardRank := some 5,
    streakCode := "W1", streakCount := 1, streakIsWin := true,
    lastTenRecord := "5-5", lastTenWinRate := ⟨5, 10⟩, clinched := false,
    homeRecord := some ⟨24, 23, ⟨511, 1000⟩⟩, awayRecord := some ⟨22, 26, ⟨458, 1000⟩⟩,
    extraInningsRecord := some ⟨2, 4, ⟨333, 1000⟩⟩, oneRunRecord := some ⟨12, 17, ⟨414, 1000⟩⟩,
    branding := TeamBranding.palette "ARI", season := 2024, leagueID := 104,
    divisionID := 203 }

/-- The Rockies sample entry. -/
def sampleRockies : TeamStanding :=
  { id := 115, name := "Colorado Rockies", shortName := "Rockies",
    location := "Colorado", abbreviation := "COL", wins := 38, losses := 57,
    winningPercentage := ⟨400, 1000⟩, winningPercentageText := "0.400",
    gamesBack := some ⟨27, 1⟩, gamesBackText := "27.0 GB",
    runDifferential := some (-92), runsScored := some 330, runsAllowed := some 422,
    divisionRank := some 5, leagueRank := some 13, wildCardRank := some 8,
    streakCode := "L4", streakCount := 4, streakIsWin := false,
    lastTenRecord := "3-7", lastTenWinRate := ⟨3, 10⟩, clinched := false,
    homeRecord := some ⟨22, 27, ⟨449, 1000⟩⟩, awayRecord := some ⟨16, 30, ⟨348, 1000⟩⟩,
    extraInningsRecord := some ⟨1, 6, ⟨143, 1000⟩⟩, oneRunRecord := some ⟨9, 21, ⟨300, 1000⟩⟩,
    branding := TeamBranding.palette "COL", season := 2024, leagueID := 104,
    divisionID := 203 }

/-- The AL East sample section. -/
def sampleALEast : StandingsSection :=
  { id := 201, divisionID := 201, leagueID := 103,
    leagueName := "American League", leagueAbbreviation := "AL",
    title := "American League East", subtitle := "AL East",
    teams := [TeamStanding.sample, sampleOrioles, sampleRays, sampleBlueJays, sampleRedSox],
    season := 2024 }

/-- The NL West sample section. -/
def sampleNLWest : StandingsSection :=
  { id := 203, divisionID := 203, leagueID := 104,
    leagueName := "National League", leagueAbbreviation := "NL",
    title := "National League West", subtitle := "NL West",
    teams := [sampleDodgers, samplePadres, sampleGiants, sampleDiamondbacks, sampleRockies],
    season := 2024 }

/-- Models `StandingsSection.sample`. -/
def sampleSections : List StandingsSection := [sampleALEast, sampleNLWest]

/-- Models `loadStandings(force:)`.  The transport run is a parameter:
`.ok response` for a successful fetch-and-decode, `.error message` for a thrown
error, `message` being its `userFriendlyDescription`. -/
def loadStandings (force : Bool) (result : Except String StandingsResponse)
    (st : EngineState) : EngineState :=
  if st.isLoading then st
  else if !force && !st.sections.isEmpty then st
  else
    let st1 := { st with isLoading := true, errorMessage := none }
    match result with
    | .ok response =>
        let st2 := { st1 with sections := response.records.map StandingsSection.ofRecord }
        let st3 := recompute st2
        { st3 with isLoading := false }
    | .error msg =>
        let st2 := { st1 with sections := sampleSections }
        let st3 := recompute st2
        { st3 with errorMessage := some msg, isLoading := false }

/-- Models `refresh()`. -/
def refresh (result : Except String StandingsResponse) (st : EngineState) : EngineState :=
  loadStandings true result st

/-! ## JSON decoding (StandingsService)

A model of Foundation's `JSONDecoder` on the `Decodable` structs above.  The
decoder's `convertFromSnakeCase` key strategy is the identity on the camelCase
keys these structs use (none contain an underscore), so keys are looked up
directly.  JSON numbers are modelled as integers, since every number-typed
field of this schema is integral. -/
/-- A JSON value. -/
inductive Json where
  | null
  | jsonBool (b : Bool)
  | jsonNum (n : ℤ)
  | jsonStr (s : String)
  | jsonArr (elements : List Json)
  | jsonObj (fields : List (String × Json))

/-- Decoding failures (`DecodingError`); the service collapses them all into
`decodingFailed`, so only the success/failure split matters. -/
inductive DecodingError where
  | keyNotFound
  | typeMismatch
deriving DecidableEq

/-- Key lookup in a JSON object's field list. -/
def getField (fields : List (String × Json)) (key : String) : Option Json :=
  match fields with
  | [] => none
  | (k, v) :: rest => if k = key then some v else getField rest key

/-- Decode a JSON value as a Swift `Int`. -/
def decodeIntJson : Json → Except DecodingError ℤ
  | .jsonNum n => .ok n
  | _ => .error .typeMismatch

/-- Decode a JSON value as a Swift `String`. -/
def decodeStringJson : Json → Except DecodingError String
  | .jsonStr s => .ok s
  | _ => .error .typeMismatch

/-- Decode a JSON value as a Swift `Bool`. -/
def decodeBoolJson : Json → Except DecodingError Bool
  | .jsonBool b => .ok b
  | _ => .error .typeMismatch

/-- Models `decode(_:forKey:)` for a non-optional property: the key must be
present and non-null, and its value must decode. -/
def requiredField {α : Type} (dec : Json → Except DecodingError α)
    (fields : List (String × Json)) (key : String) : Except DecodingError α :=
  match getField fields key with
  | none => .error .keyNotFound
  | some .null => .error .typeMismatch
  | some v => dec v

/-- Models `decodeIfPresent(_:forKey:)` for an optional property: an absent key
or a null value is `none`; a present value must decode. -/
def optionalField {α : Type} (dec : Json → Except DecodingError α)
    (fields : List (String × Json)) (key : String) : Except DecodingError (Option α) :=
  match getField fields key with
  | none => .ok none
  | some .null => .ok none
  | some v => (dec v).map some

/-- Decode a JSON array element-wise, propagating the first failure. -/
def decodeArrayJson {α : Type} (dec : Json → Except DecodingError α) :
    Json → Except DecodingError (List α)
  | .jsonArr elements => elements.mapM dec
  | _ => .error .typeMismatch

/-- Synthesized `Decodable` conformance of `TeamInfo`. -/
def decodeTeamInfo : Json → Except DecodingError TeamInfo
  | .jsonObj fields => do
      let id ← requiredField decodeIntJson fields "id"
      let name ← requiredField decodeStringJson fields "name"
      let teamName ← optionalField decodeStringJson fields "teamName"
      let shortName ← optionalField decodeStringJson fields "shortName"
      let clubName ← optionalField decodeStringJson fields "clubName"
      let locationName ← optionalField decodeStringJson fields "locationName"
      let abbreviation ← optionalField decodeStringJson fields "abbreviation"
      let fileCode ← optionalField decodeStringJson fields "fileCode"
      pure { id := id, name := name, teamName := teamName, shortName := shortName,
             clubName := clubName, locationName := locationName,
             abbreviation := abbreviation, fileCode := fileCode }
  | _ => .error .typeMismatch

/-- Synthesized `Decodable` conformance of `TeamRecord.Streak`. -/
def decodeStreakJson : Json → Except DecodingError TeamRecord.Streak
  | .jsonObj fields => do
      let streakCode ← optionalField decodeStringJson fields "streakCode"
      let streakNumber ← optionalField decodeIntJson fields "streakNumber"
      let streakType ← optionalField decodeStringJson fields "streakType"
      pure { streakCode := streakCode, streakNumber := streakNumber,
             streakType := streakType }
  | _ => .error .typeMismatch

/-- Synthesized `Decodable` conformance of `TeamRecord.Split`. -/
def decodeSplitJson : Json → Except DecodingError TeamRecord.Split
  | .jsonObj fields => do
      let wins ← optionalField decodeIntJson fields "wins"
      let losses ← optionalField decodeIntJson fields "losses"
      let pct ← optionalField decodeStringJson fields "pct"
      pure { wins := wins, losses := losses, pct := pct }
  | _ => .error .typeMismatch

/-- Synthesized `Decodable` conformance of `TeamRecord`: `team`, `wins`,
`losses` and `winningPercentage` are required; everything else is optional. -/
def decodeTeamRecord : Json → Except DecodingError TeamRecord
  | .jsonObj fields => do
      let team ← requiredField decodeTeamInfo fields "team"
      let streak ← optionalField decodeStreakJson fields "streak"
      let divisionRank ← optionalField decodeStringJson fields "divisionRank"
      let leagueRank ← optionalField decodeStringJson fields "leagueRank"
      let wildCardRank ← optionalField decodeStringJson fields "wildCardRank"
      let clinched ← optionalField decodeBoolJson fields "clinched"
      let wins ← requiredField decodeIntJson fields "wins"
      let losses ← requiredField decodeIntJson fields "losses"
      let winningPercentage ← requiredField decodeStringJson fields "winningPercentage"
      let gamesBack ← optionalField decodeStringJson fields "gamesBack"
      let runsScored ← optionalField decodeIntJson fields "runsScored"
      let runsAllowed ← optionalField decodeIntJson fields "runsAllowed"
      let runDifferential ← optionalField decodeIntJson fields "runDifferential"
      let lastTen ← optionalField decodeStringJson fields "lastTen"
      let home ← optionalField decodeSplitJson fields "home"
      let away ← optionalField decodeSplitJson fields "away"
      let extraInnings ← optionalField decodeSplitJson fields "extraInnings"
      let oneRun ← optionalField decodeSplitJson fields "oneRun"
      pure { team := team, streak := streak, divisionRank := divisionRank,
             leagueRank := leagueRank, wildCardRank := wildCardRank,
             clinched := clinched, wins := wins, losses := losses,
             winningPercentage := winningPercentage, gamesBack := gamesBack,
             runsScored := runsScored, runsAllowed := runsAllowed,
             runDifferential := runDifferential, lastTen := lastTen,
             home := home, away := away, extraInnings := extraInnings,
             oneRun := oneRun }
  | _ => .error .typeMismatch

/-- Synthesized `Decodable` conformance of `DivisionInfo`. -/
def decodeDivisionInfo : Json → Except DecodingError DivisionInfo
  | .jsonObj fields => do
      let id ← requiredField decodeIntJson fields "id"
      let name ← requiredField decodeStringJson fields "name"
      let nameShort ← optionalField decodeStringJson fields "nameShort"
      let abbreviation ← optionalField decodeStringJson fields "abbreviation"
      let shortName ← optionalField decodeStringJson fields "shortName"
      pure { id := id, name := name, nameShort := nameShort,
             abbreviation := abbreviation, shortName := shortName }
  | _ => .error .typeMismatch

/-- Synthesized `Decodable` conformance of `LeagueInfo`. -/
def decodeLeagueInfo : Json → Except DecodingError LeagueInfo
  | .jsonObj fields => do
      let id ← requiredField decodeIntJson fields "id"
      let name ← requiredField decodeStringJson fields "name"
      let abbreviation ← optionalField decodeStringJson fields "abbreviation"
      pure { id := id, name := name, abbreviation := abbreviation }
  | _ => .error .typeMismatch

/-- Synthesized `Decodable` conformance of `DivisionRecord`: `teamRecords`
must be present and list-shaped, with every element a decodable team record. -/
def decodeDivisionRecord : Json → Except DecodingError DivisionRecord
  | .jsonObj fields => do
      let teamRecords ← requiredField (decodeArrayJson decodeTeamRecord) fields "teamRecords"
      let division ← optionalField decodeDivisionInfo fields "division"
      let league ← optionalField decodeLeagueInfo fields "league"
      let season ← optionalField decodeStringJson fields "season"
      pure { teamRecords := teamRecords, division := division, league := league,
             season := season }
  | _ => .error .typeMismatch

/-- Synthesized `Decodable` conformance of `StandingsResponse`: `records` must
be present and list-shaped. -/
def decodeStandingsResponse : Json → Except DecodingError StandingsResponse
  | .jsonObj fields => do
      let records ← requiredField (decodeArrayJson decodeDivisionRecord) fields "records"
      pure { records := records }
  | _ => .error .typeMismatch

/-! ## Fetch client (StandingsService.fetchStandings) -/
/-- `StandingsService.ServiceError`. -/
inductive ServiceError where
  | invalidResponse
  | decodingFailed
deriving DecidableEq

/-- An error thrown out of `fetchStandings`: either the transport's own error
propagated from `session.data(from:)`, or a `ServiceError`. -/
inductive FetchError where
  | transport
  | service (e : ServiceError)
deriving DecidableEq

/-- The transport collaborator's outcome for one request: a thrown URL error,
or an HTTP status code with a response body. -/
inductive FetchOutcome where
  | networkFailure
  | response (status : ℤ) (body : Json)

/-- Models `fetchStandings(season:leagueIds:)`: a transport error propagates;
a non-200 status fails with `invalidResponse`; a body that does not decode as
a `StandingsResponse` fails with `decodingFailed`; otherwise the decoded
response is returned.  (The URL construction cannot fail: the query is built
from constants and integers.) -/
def fetchStandings (outcome : FetchOutcome) : Except FetchError StandingsResponse :=
  match outcome with
  | .networkFailure => .error .transport
  | .response status body =>
    if status = 200 then
      match decodeStandingsResponse body with
      | .ok r => .ok r
      | .error _ => .error (.service .decodingFailed)
    else .error (.service .invalidResponse)

/-! ## Stable-sort lemmas

Every comparator the engine passes to `sorted(by:)` is key-based:
`lt a b = decide (f a < f b)` for a key `f` into a linear order.  The lemmas
below characterise the stable sort for such comparators: it is stable on key
classes, and sorting by the favorite-pinned comparator equals sorting by the
plain comparator followed by a stable partition moving favorites first. -/
/-- The strict key comparator. -/
def keyLt {α κ : Type} [LinearOrder κ] (f : α → κ) (a b : α) : Bool := decide (f a < f b)

/-- The may-precede relation of the stable sort for a key comparator. -/
def keyLe {α κ : Type} [LinearOrder κ] (f : α → κ) (a b : α) : Bool := decide (f a ≤ f b)

/-- The favorite-pinning combinator applied to a comparator, in the shape of
the closure in `sort(teams:)`. -/
def pinned {α : Type} (p : α → Bool) (lt : α → α → Bool) (a b : α) : Bool :=
  if p a == p b then lt a b else p a && !(p b)

/-! ## The engine comparators are key-based -/
/-- The sort key realising each comparator: the primary metric (negated for
the descending metrics) lexicographically before the ascending
`divisionRank ?? 0` tie-break. -/
def sortKey : SortOption → TeamStanding → ℚ ×ₗ ℤ
  | .divisionRank, t => toLex (((t.divisionRank.getD 0 : ℤ) : ℚ), 0)
  | .winningPercentage, t => toLex (-(t.winningPercentage.toRat), t.divisionRank.getD 0)
  | .runDifferential, t =>
      toLex (((-(t.runDifferential.getD intMin) : ℤ) : ℚ), t.divisionRank.getD 0)
  | .streak, t => toLex (((-t.streakCount : ℤ) : ℚ), t.divisionRank.getD 0)
  | .lastTen, t => toLex (-(t.lastTenWinRate.toRat), t.divisionRank.getD 0)
  | .runsScored, t =>
      toLex (((-(t.runsScored.getD intMin) : ℤ) : ℚ), t.divisionRank.getD 0)

/-- The spec's wording of steps 4 and 5 of the §4.3 pipeline for one section's
teams: sort by the comparator selected by `sortOption` alone, then re-partition
the sorted list so favorited teams precede non-favorited teams while
preserving each group's relative order (a stable partition, not a re-sort). -/
def pinnedTeams (st : EngineState) (teams : List TeamStanding) : List TeamStanding :=
  let sorted := sortedBySwift (cmpOption st.sortOption) teams
  sorted.filter (fun t => decide (t.id ∈ st.favorites))
    ++ sorted.filter (fun t => !(decide (t.id ∈ st.favorites)))

/-- One section's step of the spec-worded pipeline: team filters, then
`pinnedTeams`, then the empty-section prune. -/
def specSectionStep (st : EngineState) (sec : StandingsSection) : Option StandingsSection :=
  let teams0 := sec.teams
  let teams1 := if st.showFavoritesOnly then
      teams0.filter (fun t => decide (t.id ∈ st.favorites))
    else teams0
  let teams2 := if st.searchText.isEmpty then teams1
    else
      let query := strToLower st.searchText
      teams1.filter (fun t => containsString t.searchableText query)
  let teams3 := pinnedTeams st teams2
  if teams3.isEmpty then none else some { sec with teams := teams3 }

/-- The recompute pipeline worded as the spec words §4.3: league filter,
division filter, then `specSectionStep` per retained section.  The engine's
`applyFilters` is proved equal to this pipeline. -/
def specRecomputePipeline (st : EngineState) : List StandingsSection :=
  let ws0 : List StandingsSection := match st.selectedLeague with
    | .all => st.sections
    | .american => st.sections.filter (fun s => decide (s.leagueAbbreviation = "AL"))
    | .national => st.sections.filter (fun s => decide (s.leagueAbbreviation = "NL"))
  let ws1 : List StandingsSection := match st.selectedDivisionID with
    | some d => ws0.filter (fun s => decide (s.divisionID = d))
    | none => ws0
  ws1.filterMap (specSectionStep st)

/-! ## Concrete fixtures used by witnesses and counterexamples -/
/-- A neutral team value used as the base of concrete test inputs. -/
def baseTeam : TeamStanding :=
  { id := 0, name := "T", shortName := "T", location := "T", abbreviation := "T",
    wins := 0, losses := 0, winningPercentage := ⟨5, 10⟩,
    winningPercentageText := "0.500", gamesBack := none, gamesBackText := "—",
    runDifferential := none, runsScored := none, runsAllowed := none,
    divisionRank := none, leagueRank := none, wildCardRank := none,
    streakCode := "", streakCount := 0, streakIsWin := false,
    lastTenRecord := "0-0", lastTenWinRate := ⟨0, 1⟩, clinched := false,
    homeRecord := none, awayRecord := none, extraInningsRecord := none,
    oneRunRecord := none, branding := TeamBranding.defaultPalette,
    season := 2024, leagueID := 103, divisionID := 201 }

/-- A team with an absent division rank. -/
def teamAbsentRank : TeamStanding := { baseTeam with id := 1 }

/-- A team ranked first in its division, equal to `teamAbsentRank` on every
sort metric. -/
def teamRankOne : TeamStanding := { baseTeam with id := 2, divisionRank := some 1 }

/-- A one-section standings list distinct from the built-in sample data. -/
def customSection : StandingsSection :=
  { id := 1, divisionID := 1, leagueID := 103, leagueName := "American League",
    leagueAbbreviation := "AL", title := "Custom", subtitle := "",
    teams := [{ baseTeam with id := 42 }], season := 2024 }

/-- An engine state holding previously fetched (non-sample) sections. -/
def staleState : EngineState :=
  { sections := [customSection], filteredSections := [customSection],
    isLoading := false, errorMessage := none, searchText := "",
    selectedLeague := .all, selectedDivisionID := none,
    sortOption := .divisionRank, showFavoritesOnly := false, favorites := ∅,
    season := 2024 }

/-- An engine state holding the two sample sections with no filters applied. -/
def sampleState : EngineState :=
  { sections := sampleSections, filteredSections := [], isLoading := false,
    errorMessage := none, searchText := "", selectedLeague := .all,
    selectedDivisionID := none, sortOption := .divisionRank,
    showFavoritesOnly := false, favorites := ∅, season := 2024 }

/-- The sample state with the AL East division selected. -/
def divisionSelectedState : EngineState :=
  { sampleState with selectedDivisionID := some 201 }

/-- Equality of two teams on the primary metric of a sort option (value
equality for the double-typed metrics, matching Swift `==` on `Double`). -/
def primaryMetricEq : SortOption → TeamStanding → TeamStanding → Prop
  | .divisionRank, _, _ => True
  | .winningPercentage, a, b => a.winningPercentage.toRat = b.winningPercentage.toRat
  | .runDifferential, a, b => a.runDifferential = b.runDifferential
  | .streak, a, b => a.streakCount = b.streakCount
  | .lastTen, a, b => a.lastTenWinRate.toRat = b.lastTenWinRate.toRat
  | .runsScored, a, b => a.runsScored = b.runsScored

/-! ## C7: the best-record aggregate -/
/-- The running-maximum fold of `max(by:)` specialised to the
win-percentage comparator. -/
def bestFold (acc : TeamStanding) (l : List TeamStanding) : TeamStanding :=
  l.foldl (fun result e =>
    if !(e.winningPercentage.blt result.winningPercentage) then e else result) acc

/-! ## C2: schema-level failure of the fetch -/
/-- A response body whose top-level `records` container is present and
list-shaped, whose `teamRecords` is present and list-shaped, but whose single
team record lacks the required `wins` field. -/
def missingWinsTeamRecords : List Json :=
  [Json.jsonObj [("team", Json.jsonObj [("id", Json.jsonNum 1), ("name", Json.jsonStr "X")]),
    ("losses", Json.jsonNum 3),
    ("winningPercentage", Json.jsonStr "0.5")]]

/-- The full body wrapping `missingWinsTeamRecords`. -/
def missingWinsBody : Json :=
  Json.jsonObj [("records", Json.jsonArr
    [Json.jsonObj [("teamRecords", Json.jsonArr missingWinsTeamRecords)]])]

/-- A team-record JSON whose string-typed fields hold arbitrary content. -/
def tolerantTeamJson (p g r : String) : Json :=
  Json.jsonObj [("team", Json.jsonObj [("id", Json.jsonNum 1), ("name", Json.jsonStr "X")]),
    ("wins", Json.jsonNum 3), ("losses", Json.jsonNum 3),
    ("winningPercentage", Json.jsonStr p), ("gamesBack", Json.jsonStr g),
    ("divisionRank", Json.jsonStr r)]

/-- A full response body wrapping `tolerantTeamJson`. -/
def tolerantBodyJson (p g r : String) : Json :=
  Json.jsonObj [("records", Json.jsonArr
    [Json.jsonObj [("teamRecords", Json.jsonArr [tolerantTeamJson p g r])]])]

/-- The raw record `tolerantBodyJson` decodes to. -/
def tolerantTeamRecord (p g r : String) : TeamRecord :=
  { team := { id := 1, name := "X", teamName := none, shortName := none,
              clubName := none, locationName := none, abbreviation := none,
              fileCode := none },
    streak := none, divisionRank := some r, leagueRank := none, wildCardRank := none,
    clinched := none, wins := 3, losses := 3, winningPercentage := p,
    gamesBack := some g, runsScored := none, runsAllowed := none,
    runDifferential := none, lastTen := none, home := none, away := none,
    extraInnings := none, oneRun := none }

/-! ## C8: the tolerant percentage parser -/
/-- A raw team record whose `winningPercentage` string is empty. -/
def emptyPctRecord : TeamRecord :=
  { team := { id := 7, name := "Testers", teamName := none, shortName := none,
              clubName := none, locationName := none, abbreviation := none,
              fileCode := none },
    streak := none, divisionRank := none, leagueRank := none, wildCardRank := none,
    clinched := none, wins := 0, losses := 0, winningPercentage := "",
    gamesBack := none, runsScored := none, runsAllowed := none,
    runDifferential := none, lastTen := none, home := none, away := none,
    extraInnings := none, oneRun := none }

/-- A raw division record holding only `emptyPctRecord`. -/
def emptyPctDivisionRecord : DivisionRecord :=
  { teamRecords := [emptyPctRecord], division := none, league := none, season := none }

/-! ## C9: the games-back display text -/
/-- The raw record `emptyPctRecord` with a given `gamesBack` string. -/
def gamesBackRecord (g : Option String) : TeamRecord :=
  { emptyPctRecord with gamesBack := g }

theorem Dbl.beqv_eq_toRat (a b : Dbl) : a.beqv b = decide (a.toRat = b.toRat) := by
  have ha : (0 : ℚ) < ((a.den : ℕ) : ℚ) := by exact_mod_cast a.den.pos
  have hb : (0 : ℚ) < ((b.den : ℕ) : ℚ) := by exact_mod_cast b.den.pos
  have : (a.toRat = b.toRat) ↔ (a.num * ((b.den : ℕ) : ℤ) = b.num * ((a.den : ℕ) : ℤ)) := by
    rw [Dbl.toRat, Dbl.toRat, div_eq_div_iff ha.ne' hb.ne']
    exact_mod_cast Iff.rfl
  simp [Dbl.beqv, this]

theorem Dbl.blt_eq_toRat (a b : Dbl) : a.blt b = decide (a.toRat < b.toRat) := by
  have ha : (0 : ℚ) < ((a.den : ℕ) : ℚ) := by exact_mod_cast a.den.pos
  have hb : (0 : ℚ) < ((b.den : ℕ) : ℚ) := by exact_mod_cast b.den.pos
  have : (a.toRat < b.toRat) ↔ (a.num * ((b.den : ℕ) : ℤ) < b.num * ((a.den : ℕ) : ℤ)) := by
    rw [Dbl.toRat, Dbl.toRat, div_lt_div_iff₀ ha hb]
    exact_mod_cast Iff.rfl
  simp [Dbl.blt, this]

theorem not_keyLt_swap {α κ : Type} [LinearOrder κ] (f : α → κ) :
    (fun a b : α => !(keyLt f b a)) = keyLe f := by
  funext a b
  simp [keyLt, keyLe, ← decide_not, not_lt]

theorem sortedBySwift_keyLt {α κ : Type} [LinearOrder κ] (f : α → κ) (l : List α) :
    sortedBySwift (keyLt f) l = insertionSortB (keyLe f) l := by
  rw [sortedBySwift, not_keyLt_swap]

theorem orderedInsertB_congr_on {α : Type} (r r' : α → α → Bool) (x : α) (l : List α)
    (h : ∀ y ∈ l, r x y = r' x y) : orderedInsertB r x l = orderedInsertB r' x l := by
  induction l with
  | nil => rfl
  | cons b l ih =>
    have hb := h b (List.mem_cons_self b l)
    simp only [orderedInsertB, hb]
    by_cases hr : r' x b = true
    · simp [hr]
    · simp only [Bool.not_eq_true] at hr
      simp [hr, ih fun y hy => h y (List.mem_cons_of_mem b hy)]

theorem filter_orderedInsertB_neg {α : Type} (r : α → α → Bool) (q : α → Bool) (x : α)
    (l : List α) (hx : q x = false) :
    (orderedInsertB r x l).filter q = l.filter q := by
  induction l with
  | nil => simp [orderedInsertB, hx]
  | cons b l ih =>
    by_cases hr : r x b = true
    · simp [orderedInsertB, hr, hx]
    · simp only [Bool.not_eq_true] at hr
      simp [orderedInsertB, hr, List.filter_cons, ih]

theorem pairwise_orderedInsertB {α κ : Type} [LinearOrder κ] (f : α → κ) (x : α) (l : List α)
    (h : l.Pairwise (fun a b => f a ≤ f b)) :
    (orderedInsertB (keyLe f) x l).Pairwise (fun a b => f a ≤ f b) := by
  induction l with
  | nil => simp [orderedInsertB]
  | cons b l ih =>
    rw [List.pairwise_cons] at h
    obtain ⟨hb, hl⟩ := h
    by_cases hr : keyLe f x b = true
    · have hxb : f x ≤ f b := of_decide_eq_true hr
      simp only [orderedInsertB, hr, if_true]
      refine List.Pairwise.cons ?_ (List.Pairwise.cons hb hl)
      intro y hy
      rcases List.mem_cons.mp hy with rfl | hy
      · exact hxb
      · exact hxb.trans (hb y hy)
    · have hbx : f b ≤ f x := by
        have hnot : ¬ (f x ≤ f b) := by simpa [keyLe] using hr
        exact le_of_not_le hnot
      simp only [orderedInsertB, hr, if_false]
      refine List.Pairwise.cons ?_ (ih hl)
      intro y hy
      have hmem : y = x ∨ y ∈ l := by
        clear ih hb hl
        induction l with
        | nil => simpa [orderedInsertB] using hy
        | cons c l ihm =>
          by_cases hc : keyLe f x c = true
          · simp only [orderedInsertB, hc, if_true] at hy
            rcases List.mem_cons.mp hy with rfl | hy
            · exact Or.inl rfl
            · exact Or.inr hy
          · simp only [Bool.not_eq_true] at hc
            simp only [orderedInsertB, hc, Bool.false_eq_true, if_false] at hy
            rcases List.mem_cons.mp hy with rfl | hy
            · exact Or.inr (List.mem_cons_self _ _)
            · rcases ihm hy with h | h
              · exact Or.inl h
              · exact Or.inr (List.mem_cons_of_mem _ h)
      rcases hmem with rfl | hy
      · exact hbx
      · exact hb y hy

theorem pairwise_insertionSortB {α κ : Type} [LinearOrder κ] (f : α → κ) (l : List α) :
    (insertionSortB (keyLe f) l).Pairwise (fun a b => f a ≤ f b) := by
  induction l with
  | nil => simp [insertionSortB]
  | cons x l ih => exact pairwise_orderedInsertB f x _ ih

theorem filter_orderedInsertB_pos {α κ : Type} [LinearOrder κ] (f : α → κ) (q : α → Bool) (x : α) (l : List α)
    (hx : q x = true) (h : l.Pairwise (fun a b => f a ≤ f b)) :
    (orderedInsertB (keyLe f) x l).filter q = orderedInsertB (keyLe f) x (l.filter q) := by
  induction l with
  | nil => simp [orderedInsertB, hx]
  | cons b l ih =>
    rw [List.pairwise_cons] at h
    obtain ⟨hb, hl⟩ := h
    by_cases hr : keyLe f x b = true
    · have hxb : f x ≤ f b := of_decide_eq_true hr
      simp only [orderedInsertB, hr, if_true]
      by_cases hqb : q b = true
      · simp [List.filter_cons, hx, hqb, orderedInsertB, hr]
      · simp only [Bool.not_eq_true] at hqb
        simp only [List.filter_cons, hx, hqb, Bool.false_eq_true, if_false, if_true]
        cases hfl : l.filter q with
        | nil => rfl
        | cons c rest =>
          have hc : c ∈ l.filter q := by rw [hfl]; exact List.mem_cons_self _ _
          have hcl : c ∈ l := List.mem_of_mem_filter hc
          have hxc : keyLe f x c = true := decide_eq_true (hxb.trans (hb c hcl))
          rw [orderedInsertB, if_pos hxc]
    · simp only [Bool.not_eq_true] at hr
      simp only [orderedInsertB, hr, Bool.false_eq_true, if_false]
      by_cases hqb : q b = true
      · simp [List.filter_cons, hqb, orderedInsertB, hr, ih hl]
      · simp only [Bool.not_eq_true] at hqb
        simp [List.filter_cons, hqb, ih hl]

theorem orderedInsertB_pinned_pos {α : Type} (lt : α → α → Bool) (p : α → Bool) (x : α)
    (F N : List α) (hx : p x = true) (hF : ∀ b ∈ F, p b = true)
    (hN : ∀ n ∈ N, p n = false) :
    orderedInsertB (fun a b => !(pinned p lt b a)) x (F ++ N)
      = orderedInsertB (fun a b => !(lt b a)) x F ++ N := by
  induction F with
  | nil =>
    cases N with
    | nil => rfl
    | cons n N' =>
      have hn := hN n (List.mem_cons_self n N')
      simp [orderedInsertB, pinned, hn, hx]
  | cons b F' ih =>
    have hb := hF b (List.mem_cons_self b F')
    have hcmp : (!(pinned p lt b x)) = !(lt b x) := by simp [pinned, hb, hx]
    simp only [List.cons_append, orderedInsertB, hcmp]
    by_cases hlt : (!(lt b x)) = true
    · rw [if_pos hlt, if_pos hlt]
      rfl
    · rw [if_neg hlt, if_neg hlt]
      exact congrArg (List.cons b) (ih fun y hy => hF y (List.mem_cons_of_mem b hy))

theorem orderedInsertB_pinned_neg {α : Type} (lt : α → α → Bool) (p : α → Bool) (x : α)
    (F N : List α) (hx : p x = false) (hF : ∀ b ∈ F, p b = true)
    (hN : ∀ n ∈ N, p n = false) :
    orderedInsertB (fun a b => !(pinned p lt b a)) x (F ++ N)
      = F ++ orderedInsertB (fun a b => !(lt b a)) x N := by
  induction F with
  | nil =>
    simp only [List.nil_append]
    exact orderedInsertB_congr_on _ _ x N fun y hy => by
      simp [pinned, hN y hy, hx]
  | cons b F' ih =>
    have hb := hF b (List.mem_cons_self b F')
    have hcmp : (!(pinned p lt b x)) = false := by simp [pinned, hb, hx]
    simp only [List.cons_append, orderedInsertB, hcmp]
    rw [if_neg Bool.false_ne_true]
    exact congrArg (List.cons b) (ih fun y hy => hF y (List.mem_cons_of_mem b hy))

theorem insertionSortB_pinned_eq {α κ : Type} [LinearOrder κ] (f : α → κ) (p : α → Bool) (l : List α) :
    insertionSortB (fun a b => !(pinned p (keyLt f) b a)) l
      = (insertionSortB (keyLe f) l).filter p
        ++ (insertionSortB (keyLe f) l).filter (fun a => !(p a)) := by
  induction l with
  | nil => rfl
  | cons x xs ih =>
    have hpair := pairwise_insertionSortB f xs
    have hF : ∀ b ∈ (insertionSortB (keyLe f) xs).filter p, p b = true :=
      fun b hb => List.of_mem_filter hb
    have hN : ∀ n ∈ (insertionSortB (keyLe f) xs).filter (fun a => !(p a)), p n = false :=
      fun n hn => by simpa using List.of_mem_filter hn
    by_cases hx : p x = true
    · rw [insertionSortB, ih, orderedInsertB_pinned_pos (keyLt f) p x _ _ hx hF hN,
        not_keyLt_swap]
      rw [insertionSortB,
        filter_orderedInsertB_pos f p x _ hx hpair,
        filter_orderedInsertB_neg (keyLe f) (fun a => !(p a)) x _ (by simp [hx])]
    · simp only [Bool.not_eq_true] at hx
      rw [insertionSortB, ih, orderedInsertB_pinned_neg (keyLt f) p x _ _ hx hF hN,
        not_keyLt_swap]
      rw [insertionSortB,
        filter_orderedInsertB_neg (keyLe f) p x _ hx,
        filter_orderedInsertB_pos f (fun a => !(p a)) x _ (by simp [hx]) hpair]

theorem filter_keyEq_orderedInsertB {α κ : Type} [LinearOrder κ] (f : α → κ) (x : α) (l : List α) (k : κ) :
    (orderedInsertB (keyLe f) x l).filter (fun a => decide (f a = k))
      = if f x = k then x :: l.filter (fun a => decide (f a = k))
        else l.filter (fun a => decide (f a = k)) := by
  induction l with
  | nil =>
    by_cases hk : f x = k
    · simp [orderedInsertB, hk]
    · simp [orderedInsertB, hk]
  | cons b l ih =>
    by_cases hr : keyLe f x b = true
    · by_cases hk : f x = k
      · simp [orderedInsertB, hr, List.filter_cons, hk]
      · simp [orderedInsertB, hr, List.filter_cons, hk]
    · simp only [Bool.not_eq_true] at hr
      have hbx : f b < f x := by
        simp only [keyLe, decide_eq_false_iff_not, not_le] at hr
        exact hr
      by_cases hk : f x = k
      · have hbk : ¬(f b = k) := by rw [← hk]; exact ne_of_lt hbx
        simp [orderedInsertB, hr, List.filter_cons, hk, hbk, ih]
      · by_cases hbk : f b = k
        · simp [orderedInsertB, hr, List.filter_cons, hk, hbk, ih]
        · simp [orderedInsertB, hr, List.filter_cons, hk, hbk, ih]

theorem insertionSortB_stable_classes {α κ : Type} [LinearOrder κ] (f : α → κ) (l : List α) (k : κ) :
    (insertionSortB (keyLe f) l).filter (fun a => decide (f a = k))
      = l.filter (fun a => decide (f a = k)) := by
  induction l with
  | nil => rfl
  | cons x xs ih =>
    rw [insertionSortB, filter_keyEq_orderedInsertB, ih]
    by_cases hk : f x = k
    · simp [List.filter_cons, hk]
    · simp [List.filter_cons, hk]

theorem cmpOption_eq_keyLt (opt : SortOption) :
    cmpOption opt = keyLt (sortKey opt) := by
  funext a b
  cases opt with
  | divisionRank =>
    simp only [cmpOption, keyLt, sortKey]
    rw [decide_eq_decide, Prod.Lex.lt_iff]
    simp
  | winningPercentage =>
    simp only [cmpOption, keyLt, sortKey, Dbl.beqv_eq_toRat, Dbl.blt_eq_toRat]
    by_cases h : a.winningPercentage.toRat = b.winningPercentage.toRat
    · rw [if_pos (decide_eq_true h), decide_eq_decide, Prod.Lex.lt_iff]
      simp [h]
    · rw [if_neg (by simpa using h), decide_eq_decide, Prod.Lex.lt_iff]
      simp [h]
  | runDifferential =>
    simp only [cmpOption, keyLt, sortKey]
    by_cases h : a.runDifferential.getD intMin = b.runDifferential.getD intMin
    · rw [if_pos h, decide_eq_decide, Prod.Lex.lt_iff]
      simp [h]
    · rw [if_neg h, decide_eq_decide, Prod.Lex.lt_iff]
      simp [h]
  | streak =>
    simp only [cmpOption, keyLt, sortKey]
    by_cases h : a.streakCount = b.streakCount
    · rw [if_pos h, decide_eq_decide, Prod.Lex.lt_iff]
      simp [h]
    · rw [if_neg h, decide_eq_decide, Prod.Lex.lt_iff]
      simp [h]
  | lastTen =>
    simp only [cmpOption, keyLt, sortKey, Dbl.beqv_eq_toRat, Dbl.blt_eq_toRat]
    by_cases h : a.lastTenWinRate.toRat = b.lastTenWinRate.toRat
    · rw [if_pos (decide_eq_true h), decide_eq_decide, Prod.Lex.lt_iff]
      simp [h]
    · rw [if_neg (by simpa using h), decide_eq_decide, Prod.Lex.lt_iff]
      simp [h]
  | runsScored =>
    simp only [cmpOption, keyLt, sortKey]
    by_cases h : a.runsScored.getD intMin = b.runsScored.getD intMin
    · rw [if_pos h, decide_eq_decide, Prod.Lex.lt_iff]
      simp [h]
    · rw [if_neg h, decide_eq_decide, Prod.Lex.lt_iff]
      simp [h]

theorem favoriteAwareCmp_eq_pinned (favs : Finset ℤ) (opt : SortOption) :
    favoriteAwareCmp favs opt
      = pinned (fun t : TeamStanding => decide (t.id ∈ favs)) (cmpOption opt) := rfl

/-- `sort(teams:)` equals: sort by the selected comparator alone, then stably
partition the result with favorites first. -/
theorem sortTeams_eq_stable_partition (favs : Finset ℤ) (opt : SortOption)
    (teams : List TeamStanding) :
    sortTeams favs opt teams
      = (sortedBySwift (cmpOption opt) teams).filter (fun t => decide (t.id ∈ favs))
        ++ (sortedBySwift (cmpOption opt) teams).filter
            (fun t => !(decide (t.id ∈ favs))) := by
  rw [sortTeams, sortedBySwift]
  simp only [favoriteAwareCmp_eq_pinned, cmpOption_eq_keyLt]
  rw [sortedBySwift_keyLt]
  exact insertionSortB_pinned_eq (sortKey opt) (fun t => decide (t.id ∈ favs)) teams

theorem applyFilters_eq_specPipeline (st : EngineState) :
    applyFilters st = specRecomputePipeline st := by
  simp only [applyFilters, specRecomputePipeline]
  congr 1
  funext sec
  simp only [specSectionStep, pinnedTeams, sortTeams_eq_stable_partition]

theorem partition_filter_left {α : Type} (p : α → Bool) (l : List α) :
    (l.filter p ++ l.filter (fun a => !(p a))).filter p = l.filter p := by
  rw [List.filter_append, List.filter_filter, List.filter_filter]
  have h1 : ∀ a : α, (p a && p a) = p a := fun a => Bool.and_self (p a)
  have h2 : ∀ a : α, (p a && !(p a)) = false := fun a => by
    cases h : p a <;> simp [h]
  simp only [h1, h2, List.filter_false, List.append_nil]

theorem partition_filter_right {α : Type} (p : α → Bool) (l : List α) :
    (l.filter p ++ l.filter (fun a => !(p a))).filter (fun a => !(p a))
      = l.filter (fun a => !(p a)) := by
  rw [List.filter_append, List.filter_filter, List.filter_filter]
  have h1 : ∀ a : α, (!(p a) && p a) = false := fun a => by
    cases h : p a <;> simp [h]
  have h2 : ∀ a : α, (!(p a) && !(p a)) = !(p a) := fun a => Bool.and_self _
  simp only [h1, h2, List.filter_false, List.nil_append]

theorem pinnedTeams_partition (st : EngineState) (ts : List TeamStanding) :
    pinnedTeams st ts
      = (pinnedTeams st ts).filter (fun t => decide (t.id ∈ st.favorites))
        ++ (pinnedTeams st ts).filter (fun t => !(decide (t.id ∈ st.favorites))) := by
  simp only [pinnedTeams]
  rw [partition_filter_left, partition_filter_right]

theorem prune_eq_some_teams (l : List TeamStanding) (a sec : StandingsSection)
    (h : (if l.isEmpty then none else some { a with teams := l }) = some sec) :
    sec.teams = l ∧ l ≠ [] := by
  by_cases hl : l.isEmpty
  · rw [if_pos hl] at h
    exact absurd h (by simp)
  · rw [if_neg hl] at h
    cases Option.some_inj.mp h
    exact ⟨rfl, fun hnil => hl (by rw [hnil]; rfl)⟩

theorem specSectionStep_teams (st : EngineState) (a sec : StandingsSection)
    (h : specSectionStep st a = some sec) :
    (∃ ts, sec.teams = pinnedTeams st ts) ∧ sec.teams ≠ [] := by
  simp only [specSectionStep] at h
  rcases prune_eq_some_teams _ a sec h with ⟨hteams, hne⟩
  exact ⟨⟨_, hteams⟩, hteams ▸ hne⟩

/-- C3: the filtered output sorts each section by the selected comparator
alone and then stably partitions favorites first (this is exactly
`specRecomputePipeline`), and in every emitted section all favorited teams
precede all non-favorited teams. -/
theorem claim3_favorite_pinning_stable_partition (st : EngineState) :
    applyFilters st = specRecomputePipeline st
    ∧ (applyFilters st).Forall (fun sec =>
        sec.teams = sec.teams.filter (fun t => decide (t.id ∈ st.favorites))
          ++ sec.teams.filter (fun t => !(decide (t.id ∈ st.favorites)))) := by
  refine ⟨applyFilters_eq_specPipeline st, ?_⟩
  rw [List.forall_iff_forall_mem]
  intro sec hsec
  rw [applyFilters_eq_specPipeline] at hsec
  simp only [specRecomputePipeline] at hsec
  rcases List.mem_filterMap.mp hsec with ⟨a, _, hfa⟩
  rcases specSectionStep_teams st a sec hfa with ⟨⟨ts, hteams⟩, _⟩
  rw [hteams]
  exact pinnedTeams_partition st ts

/-- C4: for every sort option other than `divisionRank`, teams equal on the
primary metric are ordered by ascending `divisionRank ?? 0`, so a team with an
absent rank sorts before a team with rank 1; and sorting by
`winningPercentage` is stable on classes of teams equal on both the
percentage and the tie-break rank. -/
theorem claim4_tie_break_chain :
    (∀ opt, opt ≠ SortOption.divisionRank → ∀ a b, primaryMetricEq opt a b →
        cmpOption opt a b = decide (a.divisionRank.getD 0 < b.divisionRank.getD 0))
    ∧ (∀ opt a b, opt ≠ SortOption.divisionRank → primaryMetricEq opt a b →
        a.divisionRank = none → b.divisionRank = some 1 → cmpOption opt a b = true)
    ∧ (∀ (l : List TeamStanding) (k : ℚ ×ₗ ℤ),
        (sortedBySwift (cmpOption .winningPercentage) l).filter
            (fun t => decide (sortKey .winningPercentage t = k))
          = l.filter (fun t => decide (sortKey .winningPercentage t = k))) := by
  have main : ∀ opt, opt ≠ SortOption.divisionRank → ∀ a b, primaryMetricEq opt a b →
      cmpOption opt a b = decide (a.divisionRank.getD 0 < b.divisionRank.getD 0) := by
    intro opt hne a b h
    cases opt with
    | divisionRank => exact absurd rfl hne
    | winningPercentage =>
      simp only [primaryMetricEq] at h
      simp only [cmpOption, Dbl.beqv_eq_toRat]
      rw [if_pos (decide_eq_true h)]
    | runDifferential =>
      simp only [primaryMetricEq] at h
      simp only [cmpOption]
      rw [if_pos (by rw [h])]
    | streak =>
      simp only [primaryMetricEq] at h
      simp only [cmpOption]
      rw [if_pos h]
    | lastTen =>
      simp only [primaryMetricEq] at h
      simp only [cmpOption, Dbl.beqv_eq_toRat]
      rw [if_pos (decide_eq_true h)]
    | runsScored =>
      simp only [primaryMetricEq] at h
      simp only [cmpOption]
      rw [if_pos (by rw [h])]
  refine ⟨main, ?_, ?_⟩
  · intro opt a b hne h ha hb
    rw [main opt hne a b h, ha, hb]
    decide
  · intro l k
    rw [cmpOption_eq_keyLt, sortedBySwift_keyLt]
    exact insertionSortB_stable_classes _ l k

theorem claim4_witness :
    cmpOption .winningPercentage teamAbsentRank teamRankOne = true :=
  claim4_tie_break_chain.2.1 .winningPercentage teamAbsentRank teamRankOne
    (by decide) rfl rfl rfl

/-- C6: after every recompute no emitted section is empty, while the
source-of-truth sections are untouched by every filter, sort and favorite
mutation. -/
theorem claim6_prune_and_frame (st : EngineState) (q : String) (lg : LeagueFilter)
    (dv : Option ℤ) (so : SortOption) (fo : Bool) (tm : TeamStanding) :
    (applyFilters st).Forall (fun sec => sec.teams ≠ [])
    ∧ (setSearchText q st).sections = st.sections
    ∧ (setSelectedLeague lg st).sections = st.sections
    ∧ (setSelectedDivisionID dv st).sections = st.sections
    ∧ (setSortOption so st).sections = st.sections
    ∧ (setShowFavoritesOnly fo st).sections = st.sections
    ∧ (toggleFavorite tm st).sections = st.sections
    ∧ (clearFilters st).sections = st.sections := by
  refine ⟨?_, rfl, rfl, rfl, rfl, rfl, ?_, rfl⟩
  · rw [List.forall_iff_forall_mem]
    intro sec hsec
    rw [applyFilters_eq_specPipeline] at hsec
    simp only [specRecomputePipeline] at hsec
    rcases List.mem_filterMap.mp hsec with ⟨a, _, hfa⟩
    exact (specSectionStep_teams st a sec hfa).2
  · unfold toggleFavorite
    split
    · rfl
    · rfl

/-- C10: `clearFilters` resets the five filter axes and leaves favorites, the
source sections, the season and the load state untouched (no refetch). -/
theorem claim10_clear_filters (st : EngineState) :
    (clearFilters st).searchText = ""
    ∧ (clearFilters st).selectedLeague = LeagueFilter.all
    ∧ (clearFilters st).selectedDivisionID = none
    ∧ (clearFilters st).sortOption = SortOption.divisionRank
    ∧ (clearFilters st).showFavoritesOnly = false
    ∧ (clearFilters st).favorites = st.favorites
    ∧ (clearFilters st).sections = st.sections
    ∧ (clearFilters st).season = st.season
    ∧ (clearFilters st).isLoading = st.isLoading
    ∧ (clearFilters st).errorMessage = st.errorMessage :=
  ⟨rfl, rfl, rfl, rfl, rfl, rfl, rfl, rfl, rfl, rfl⟩

theorem setSelectedLeague_divisionID (lg : LeagueFilter) (st : EngineState) :
    (setSelectedLeague lg st).selectedDivisionID
      = match st.selectedDivisionID with
        | some d => if d ∈ availableDivisionIDs st lg then some d else none
        | none => none := rfl

theorem availableDivisionIDs_congr (st1 st2 : EngineState) (lg : LeagueFilter)
    (h : st1.sections = st2.sections) :
    availableDivisionIDs st1 lg = availableDivisionIDs st2 lg := by
  cases lg <;> simp [availableDivisionIDs, h]

/-- C5: changing the league filter clears a division selection that is not
available under the new league, and the state after a league change never
holds a division selection unavailable under its league. -/
theorem claim5_league_change_clears_division (st : EngineState) (lg : LeagueFilter) :
    (∀ d, st.selectedDivisionID = some d → d ∉ availableDivisionIDs st lg →
        (setSelectedLeague lg st).selectedDivisionID = none)
    ∧ (∀ d, (setSelectedLeague lg st).selectedDivisionID = some d →
        d ∈ availableDivisionIDs (setSelectedLeague lg st)
              (setSelectedLeague lg st).selectedLeague) := by
  constructor
  · intro d hd hnot
    rw [setSelectedLeague_divisionID, hd]
    simp [hnot]
  · intro d hd
    rw [setSelectedLeague_divisionID] at hd
    have hsec : (setSelectedLeague lg st).sections = st.sections := rfl
    have hlg : (setSelectedLeague lg st).selectedLeague = lg := rfl
    rw [hlg, availableDivisionIDs_congr _ st lg hsec]
    cases hd0 : st.selectedDivisionID with
    | none => rw [hd0] at hd; exact absurd hd (by simp)
    | some d0 =>
      rw [hd0] at hd
      have hdIf : (if d0 ∈ availableDivisionIDs st lg then some d0 else none) = some d := hd
      by_cases hin : d0 ∈ availableDivisionIDs st lg
      · rw [if_pos hin] at hdIf
        cases Option.some_inj.mp hdIf
        exact hin
      · rw [if_neg hin] at hdIf
        exact absurd hdIf (by simp)

theorem claim5_witness :
    (setSelectedLeague .national divisionSelectedState).selectedDivisionID = none :=
  (claim5_league_change_clears_division divisionSelectedState .national).1 201
    rfl (by decide)

theorem bestWinPercentageTeam_eq (st : EngineState) :
    bestWinPercentageTeam st = match aggregatedTeams st with
      | [] => none
      | x :: xs => some (bestFold x xs) := by
  rw [bestWinPercentageTeam]
  cases aggregatedTeams st with
  | nil => rfl
  | cons x xs => rfl

theorem bestFold_spec (l : List TeamStanding) : ∀ acc : TeamStanding,
    (bestFold acc l = acc ∨ bestFold acc l ∈ l)
    ∧ acc.winningPercentage.toRat ≤ (bestFold acc l).winningPercentage.toRat
    ∧ ∀ u ∈ l, u.winningPercentage.toRat ≤ (bestFold acc l).winningPercentage.toRat := by
  induction l with
  | nil =>
    intro acc
    exact ⟨Or.inl rfl, le_refl _, fun u hu => absurd hu (List.not_mem_nil u)⟩
  | cons e l ih =>
    intro acc
    by_cases hblt : e.winningPercentage.blt acc.winningPercentage = true
    · have hE : e.winningPercentage.toRat ≤ acc.winningPercentage.toRat := by
        rw [Dbl.blt_eq_toRat] at hblt
        exact le_of_lt (of_decide_eq_true hblt)
      have heq : bestFold acc (e :: l) = bestFold acc l := by
        simp [bestFold, List.foldl_cons, hblt]
      rw [heq]
      refine ⟨(ih acc).1.imp id (List.mem_cons_of_mem e), (ih acc).2.1, ?_⟩
      intro u hu
      rcases List.mem_cons.mp hu with hequ | hu
      · rw [hequ]
        exact le_trans hE (ih acc).2.1
      · exact (ih acc).2.2 u hu
    · have hA : acc.winningPercentage.toRat ≤ e.winningPercentage.toRat := by
        rw [Dbl.blt_eq_toRat] at hblt
        exact le_of_not_lt (of_decide_eq_false (Bool.of_not_eq_true hblt))
      have heq : bestFold acc (e :: l) = bestFold e l := by
        simp [bestFold, List.foldl_cons, hblt]
      rw [heq]
      refine ⟨?_, le_trans hA (ih e).2.1, ?_⟩
      · rcases (ih e).1 with h | h
        · exact Or.inr (by rw [h]; exact List.mem_cons_self e l)
        · exact Or.inr (List.mem_cons_of_mem e h)
      · intro u hu
        rcases List.mem_cons.mp hu with hequ | hu
        · rw [hequ]
          exact (ih e).2.1
        · exact (ih e).2.2 u hu

theorem toggleFavorite_sections (tm : TeamStanding) (st : EngineState) :
    (toggleFavorite tm st).sections = st.sections := by
  unfold toggleFavorite
  split
  · rfl
  · rfl

theorem bestWinPercentageTeam_congr (st1 st2 : EngineState)
    (h : st1.sections = st2.sections) :
    bestWinPercentageTeam st1 = bestWinPercentageTeam st2 := by
  unfold bestWinPercentageTeam aggregatedTeams
  rw [h]

/-- C7: the best-record aggregate scans the full unfiltered team set: when it
returns a team, that team is in the aggregate set and attains the maximum
winning percentage; it is `some` whenever any team is loaded; and it is
untouched by every filter, sort and favorite mutation. -/
theorem claim7_best_record_aggregate (st : EngineState) :
    (∀ t, bestWinPercentageTeam st = some t →
        t ∈ aggregatedTeams st
        ∧ ∀ u ∈ aggregatedTeams st,
            u.winningPercentage.toRat ≤ t.winningPercentage.toRat)
    ∧ (aggregatedTeams st ≠ [] → (bestWinPercentageTeam st).isSome = true)
    ∧ ∀ (q : String) (lg : LeagueFilter) (dv : Option ℤ) (so : SortOption)
        (fo : Bool) (tm : TeamStanding),
        bestWinPercentageTeam (setSearchText q st) = bestWinPercentageTeam st
        ∧ bestWinPercentageTeam (setSelectedLeague lg st) = bestWinPercentageTeam st
        ∧ bestWinPercentageTeam (setSelectedDivisionID dv st) = bestWinPercentageTeam st
        ∧ bestWinPercentageTeam (setSortOption so st) = bestWinPercentageTeam st
        ∧ bestWinPercentageTeam (setShowFavoritesOnly fo st) = bestWinPercentageTeam st
        ∧ bestWinPercentageTeam (toggleFavorite tm st) = bestWinPercentageTeam st
        ∧ bestWinPercentageTeam (clearFilters st) = bestWinPercentageTeam st := by
  refine ⟨?_, ?_, ?_⟩
  · intro t ht
    rw [bestWinPercentageTeam_eq] at ht
    cases hagg : aggregatedTeams st with
    | nil => rw [hagg] at ht; exact absurd ht (by simp)
    | cons x xs =>
      rw [hagg] at ht
      cases Option.some_inj.mp ht
      rcases bestFold_spec xs x with ⟨hm, hx, hall⟩
      constructor
      · rcases hm with h | h
        · rw [h]
          exact List.mem_cons_self x xs
        · exact List.mem_cons_of_mem x h
      · intro u hu
        rcases List.mem_cons.mp hu with hequ | hu
        · rw [hequ]
          exact hx
        · exact hall u hu
  · intro hne
    rw [bestWinPercentageTeam_eq]
    cases hagg : aggregatedTeams st with
    | nil => exact absurd hagg hne
    | cons x xs => simp
  · intro q lg dv so fo tm
    refine ⟨bestWinPercentageTeam_congr _ st rfl, bestWinPercentageTeam_congr _ st rfl,
      bestWinPercentageTeam_congr _ st rfl, bestWinPercentageTeam_congr _ st rfl,
      bestWinPercentageTeam_congr _ st rfl,
      bestWinPercentageTeam_congr _ st (toggleFavorite_sections tm st),
      bestWinPercentageTeam_congr _ st rfl⟩

theorem claim7_witness :
    sampleDodgers ∈ aggregatedTeams sampleState
    ∧ (bestWinPercentageTeam sampleState).isSome = true :=
  ⟨(((claim7_best_record_aggregate sampleState).1 sampleDodgers (by decide)).1),
    ((claim7_best_record_aggregate sampleState).2.1 (by decide))⟩

/-! ## C1: behaviour on fetch failure -/
/-- C1 counterexample: a refresh that fails does not retain the previously
held sections — the catch branch of `loadStandings` overwrites them (with the
built-in sample sections). -/
theorem claim1_counterexample :
    (loadStandings true (.error "The server returned an unexpected response.")
        staleState).sections ≠ staleState.sections := by
  decide

/-- C1 amended: when a load proceeds (not already loading, and forced or
nothing held) and the fetch fails, the engine replaces the held sections with
the built-in sample sections, surfaces the error message non-fatally, and
clears the loading flag. -/
theorem claim1_failure_installs_sample (st : EngineState) (msg : String) (force : Bool)
    (h1 : st.isLoading = false) (h2 : force = true ∨ st.sections = []) :
    (loadStandings force (.error msg) st).sections = sampleSections
    ∧ (loadStandings force (.error msg) st).errorMessage = some msg
    ∧ (loadStandings force (.error msg) st).isLoading = false := by
  have hguard : (!force && !st.sections.isEmpty) = false := by
    rcases h2 with hf | hs
    · rw [hf]
      rfl
    · rw [hs]
      simp
  unfold loadStandings
  rw [h1, hguard]
  exact ⟨rfl, rfl, rfl⟩

theorem claim1_witness :
    (loadStandings true (.error "The server returned an unexpected response.")
        staleState).sections = sampleSections :=
  (claim1_failure_installs_sample staleState
    "The server returned an unexpected response." true rfl (Or.inl rfl)).1

/-- C2 counterexample: the `records` container of `missingWinsBody` is present
and list-shaped, yet the fetch fails with the schema-level error, because one
team record below that level lacks `wins`. -/
theorem claim2_counterexample :
    getField [("records", Json.jsonArr
        [Json.jsonObj [("teamRecords", Json.jsonArr missingWinsTeamRecords)]])] "records"
      = some (Json.jsonArr [Json.jsonObj [("teamRecords", Json.jsonArr missingWinsTeamRecords)]])
    ∧ fetchStandings (.response 200 missingWinsBody)
        = .error (.service .decodingFailed) := by
  exact ⟨rfl, rfl⟩

/-- C2 amended: with the required fields present, the fetch succeeds whatever
the content of the string-typed fields; the malformed values degrade per-field
during normalization (tolerant parses), and the team record survives into its
section. -/
theorem claim2_tolerance_below_required_fields (p g r : String) :
    fetchStandings (.response 200 (tolerantBodyJson p g r))
      = .ok ⟨[⟨[tolerantTeamRecord p g r], none, none, none⟩]⟩
    ∧ (StandingsSection.ofRecord ⟨[tolerantTeamRecord p g r], none, none, none⟩).teams.map
        (·.id) = [1]
    ∧ (TeamStanding.ofRecord (tolerantTeamRecord p g r) none none 2024).winningPercentage
        = (tolerantDouble (some p)).getD (Dbl.ofInt 0)
    ∧ (TeamStanding.ofRecord (tolerantTeamRecord p g r) none none 2024).divisionRank
        = parseIntStr r := by
  exact ⟨rfl, rfl, rfl, rfl⟩

/-- C8: the tolerant parser yields exactly 0.674, 0.654 and 1 for the three
spec strings, and an empty `winningPercentage` normalizes to 0 with the team
kept in its section. -/
theorem claim8_percentage_parsing :
    (tolerantDouble (some "0.674")).map Dbl.toRat = some ((0.674 : ℚ))
    ∧ (tolerantDouble (some ".654")).map Dbl.toRat = some ((0.654 : ℚ))
    ∧ (tolerantDouble (some "1")).map Dbl.toRat = some ((1 : ℚ))
    ∧ (TeamStanding.ofRecord emptyPctRecord none none 2024).winningPercentage = Dbl.ofInt 0
    ∧ (TeamStanding.ofRecord emptyPctRecord none none 2024).winningPercentage.toRat = 0
    ∧ (StandingsSection.ofRecord emptyPctDivisionRecord).teams.map (·.id) = [7] := by
  have h1 : tolerantDouble (some "0.674") = some ⟨674, 1000⟩ := by decide
  have h2 : tolerantDouble (some ".654") = some ⟨654, 1000⟩ := by decide
  have h3 : tolerantDouble (some "1") = some ⟨1, 1⟩ := by decide
  refine ⟨?_, ?_, ?_, by decide, ?_, by decide⟩
  · rw [h1]
    have : Dbl.toRat ⟨674, 1000⟩ = (0.674 : ℚ) := by
      show ((674 : ℤ) : ℚ) / ((1000 : ℕ) : ℚ) = (0.674 : ℚ)
      norm_num
    rw [Option.map_some', this]
  · rw [h2]
    have : Dbl.toRat ⟨654, 1000⟩ = (0.654 : ℚ) := by
      show ((654 : ℤ) : ℚ) / ((1000 : ℕ) : ℚ) = (0.654 : ℚ)
      norm_num
    rw [Option.map_some', this]
  · rw [h3]
    have : Dbl.toRat ⟨1, 1⟩ = (1 : ℚ) := by
      show ((1 : ℤ) : ℚ) / ((1 : ℕ) : ℚ) = (1 : ℚ)
      norm_num
    rw [Option.map_some', this]
  · have h4 : (TeamStanding.ofRecord emptyPctRecord none none 2024).winningPercentage
        = Dbl.ofInt 0 := by decide
    rw [h4]
    show ((0 : ℤ) : ℚ) / ((1 : ℕ) : ℚ) = 0
    norm_num

/-- C9 counterexample: a hyphen `gamesBack` does not render as the em-dash
sentinel; the display falls back to the raw string, a plain hyphen. -/
theorem claim9_counterexample :
    (TeamStanding.ofRecord (gamesBackRecord (some "-")) none none 2024).gamesBackText = "-"
    ∧ "-" ≠ "—" := by
  exact ⟨by decide, by decide⟩

/-- C9 amended: `"0"` and a missing `gamesBack` render as the em-dash
sentinel and `"4.0"` renders as `"4.0 GB"`; a dash-like `gamesBack` parses as
absent and the display falls back to the raw string verbatim, so an em-dash
renders as the em-dash sentinel but a hyphen renders as `"-"`. -/
theorem claim9_games_back_text :
    (TeamStanding.ofRecord (gamesBackRecord (some "0")) none none 2024).gamesBackText = "—"
    ∧ (TeamStanding.ofRecord (gamesBackRecord (some "4.0")) none none 2024).gamesBackText
        = "4.0 GB"
    ∧ (TeamStanding.ofRecord (gamesBackRecord none) none none 2024).gamesBackText = "—"
    ∧ (TeamStanding.ofRecord (gamesBackRecord (some "—")) none none 2024).gamesBackText = "—"
    ∧ (TeamStanding.ofRecord (gamesBackRecord (some "-")) none none 2024).gamesBackText
        = "-" := by
  refine ⟨by decide, by decide, by decide, by decide, by decide⟩

end MLBStandings
